import Mathlib

/-!
Verification development for the wedding-planner board engine
(`src/lib/timeframeUtils.ts`, `src/lib/types.ts`, the board store /
persistence orchestrator in `src/unnamed/part_007`, and the column
reordering handlers in `src/components/TimeframeHeader.tsx`).

Modelling conventions:
* A JavaScript `Date` is modelled at calendar-day granularity (local
  time) as a `CalDate` triple (year, 0-based month, 1-based day), the
  projection `(getFullYear, getMonth, getDate)` of a JS Date.  All code
  under verification compares dates only at day granularity (the store
  stamps `updatedAt` with full timestamps, but no verified property
  inspects the sub-day part).  `jsMakeDate` reproduces the semantics of
  the `new Date(year, monthIndex, day)` constructor, including overflow
  normalization and the two-digit-year (1900 + y) rule.
* JS `number` order keys are modelled as `Rat` (exact arithmetic; the
  spec explicitly leaves floating-point rounding of repeated midpoint
  insertion as an open question and out of scope).
* `generateId()` is impure (random); operations that mint an id take
  the fresh id as an explicit argument.
* Strings whose content the code inspects (ISO date strings, timeframe
  names) are Lean `String`s; JS string `<=` is lexicographic by UTF-16
  code unit, which for the ASCII strings involved coincides with the
  code-point lexicographic order implemented by `strLe`.
* `parseISODate` models `new Date(y, m-1, d)` applied to the numeric
  pieces of a well-formed `YYYY-MM-DD` string; strings whose pieces are
  not natural-number literals (JS `NaN`, producing an Invalid Date) are
  modelled as an unresolvable (`none`) start date.
-/

namespace WeddingPlanner

/-- A calendar date: JS `Date` projected to (getFullYear, getMonth, getDate).
`month` is 0-based as in JS; `day` is 1-based.  Values produced by
`jsMakeDate` are always normalized (month in 0..11, day in range). -/
structure CalDate where
  year : Int
  month : Int
  day : Int
  deriving DecidableEq, Repr

/-- Gregorian leap-year rule (the rule JS `Date` follows). -/
def isLeap (y : Int) : Bool :=
  y % 4 = 0 && (y % 100 != 0 || y % 400 = 0)

/-- Number of days in 0-based month `m` of year `y`. -/
def daysInMonth (y m : Int) : Int :=
  if m = 1 then (if isLeap y then 29 else 28)
  else if m = 3 || m = 5 || m = 8 || m = 10 then 30
  else 31

theorem daysInMonth_ge_28 (y m : Int) : 28 ≤ daysInMonth y m := by
  unfold daysInMonth
  split
  · split <;> norm_num
  · split <;> norm_num

theorem daysInMonth_pos (y m : Int) : 0 < daysInMonth y m :=
  lt_of_lt_of_le (by norm_num) (daysInMonth_ge_28 y m)

theorem daysInMonth_le_31 (y m : Int) : daysInMonth y m ≤ 31 := by
  unfold daysInMonth
  split
  · split <;> norm_num
  · split <;> norm_num

/-- Day-overflow normalization used by the JS `Date` constructor: starting
from year `y`, 0-based month `m` (already in 0..11) and an arbitrary day
number `d`, walk month by month until `d` is in range.  The fuel is an
upper bound on the number of borrow/carry steps actually needed; when it
is `d.natAbs + 13` the fuel can never run out. -/
def normDay : Nat → Int → Int → Int → CalDate
  | 0, y, m, d => ⟨y, m, d⟩
  | fuel + 1, y, m, d =>
    if d < 1 then
      let m' := if m = 0 then (11 : Int) else m - 1
      let y' := if m = 0 then y - 1 else y
      normDay fuel y' m' (d + daysInMonth y' m')
    else if daysInMonth y m < d then
      let m' := if m = 11 then (0 : Int) else m + 1
      let y' := if m = 11 then y + 1 else y
      normDay fuel y' m' (d - daysInMonth y m)
    else ⟨y, m, d⟩

/-- The two-digit-year rule of the JS `Date` constructor: years 0..99
mean 1900..1999. -/
def jsYearAdjust (year : Int) : Int :=
  if 0 ≤ year && year ≤ 99 then year + 1900 else year

/-- Semantics of the JS constructor `new Date(year, monthIndex, day)` at
calendar-day granularity: apply the two-digit-year rule, normalize the
month index by floor division, then walk day overflow/underflow across
month boundaries. -/
def jsMakeDate (year monthIndex day : Int) : CalDate :=
  normDay (day.natAbs + 13)
    ((jsYearAdjust year * 12 + monthIndex).fdiv 12)
    (jsYearAdjust year * 12 + monthIndex - 12 * ((jsYearAdjust year * 12 + monthIndex).fdiv 12))
    day

/-- `a ≤ b` on calendar dates (the order `getTime` induces on normalized
dates). -/
def dateLe (a b : CalDate) : Bool :=
  a.year < b.year ||
    (a.year = b.year &&
      (a.month < b.month || (a.month = b.month && a.day ≤ b.day)))

/-- `a < b` on calendar dates. -/
def dateLt (a b : CalDate) : Bool :=
  a.year < b.year ||
    (a.year = b.year &&
      (a.month < b.month || (a.month = b.month && a.day < b.day)))

/-- `String(n).padStart(2, "0")` for the integers that occur in ISO date
fields. -/
def pad2 (n : Int) : String :=
  if 0 ≤ n && n < 10 then "0" ++ toString n else toString n

/-- `toISODateString` from `timeframeUtils.ts`: format a date as
`YYYY-MM-DD` (months printed 1-based). -/
def toISODateString (d : CalDate) : String :=
  toString d.year ++ "-" ++ pad2 (d.month + 1) ++ "-" ++ pad2 d.day

/-- Lexicographic code-point order on character lists: the order JS uses
to compare strings (restricted to ASCII, where code units and code
points agree). -/
def charListLe : List Char → List Char → Bool
  | [], _ => true
  | _ :: _, [] => false
  | a :: as, b :: bs =>
    if a < b then true
    else if a = b then charListLe as bs
    else false

/-- JS string `<=`. -/
def strLe (a b : String) : Bool :=
  charListLe a.data b.data

/-- JS string truthiness for an optional string field: `undefined` and
the empty string are falsy. -/
def strTruthy : Option String → Bool
  | none => false
  | some s => s ≠ ""

/-- Split a character list on a separator character, the core of JS
`String.prototype.split` with a single-character separator.
(Implemented structurally so that proofs can evaluate it; the library
`String.splitOn` uses well-founded recursion.) -/
def splitCharAux (c : Char) : List Char → List Char → List String
  | [], acc => [String.mk acc.reverse]
  | x :: xs, acc =>
    if x = c then String.mk acc.reverse :: splitCharAux c xs []
    else splitCharAux c xs (x :: acc)

/-- JS `s.split(c)` for a one-character separator. -/
def splitOnChar (c : Char) (s : String) : List String :=
  splitCharAux c s.data []

/-- JS `Number` / `parseInt` on a token: the value when the token is a
nonempty digit string, else `none` (JS `NaN`). -/
def parseNatTok (s : String) : Option Nat :=
  if s.data ≠ [] && s.data.all Char.isDigit then
    some (s.data.foldl (fun acc ch => acc * 10 + (ch.toNat - 48)) 0)
  else none

/-- ASCII lower-casing of one character (`String.prototype.toLowerCase`
restricted to the ASCII month names it is applied to). -/
def lowerChar (c : Char) : Char :=
  if 65 ≤ c.toNat && c.toNat ≤ 90 then Char.ofNat (c.toNat + 32) else c

/-- ASCII `toLowerCase`. -/
def lowerString (s : String) : String :=
  String.mk (s.data.map lowerChar)

/-- `parseISODate` from `timeframeUtils.ts`: split on `-`, convert the
pieces with `Number`, and build `new Date(y, m - 1, d)`.  Strings whose
pieces are not numeric literals yield a JS Invalid Date, modelled here
as `none`. -/
def parseISODate (s : String) : Option CalDate :=
  match (splitOnChar '-' s).map parseNatTok with
  | [some y, some m, some d] => some (jsMakeDate (Int.ofNat y) (Int.ofNat m - 1) (Int.ofNat d))
  | _ => none

/-! ## Data model (`src/lib/types.ts`) -/

inductive TaskStatus where
  | not_started | in_progress | completed
  deriving DecidableEq, Repr

inductive TaskAssignee where
  | unassigned | bride | groom | both | other
  deriving DecidableEq, Repr

inductive TaskPriority where
  | normal | high
  deriving DecidableEq, Repr

structure ChecklistItem where
  id : String
  title : String
  completed : Bool
  deriving DecidableEq, Repr

structure Task where
  id : String
  title : String
  notes : String
  status : TaskStatus
  assignee : TaskAssignee
  priority : TaskPriority
  categoryId : String
  timeframeId : String
  dueDate : Option CalDate
  checklist : List ChecklistItem
  createdAt : CalDate
  updatedAt : CalDate
  deriving DecidableEq, Repr

structure Category where
  id : String
  name : String
  order : Rat
  deriving DecidableEq, Repr

structure Timeframe where
  id : String
  name : String
  order : Rat
  hidden : Option Bool := none
  startDate : Option String := none
  endDate : Option String := none
  deriving DecidableEq, Repr

structure Board where
  id : String
  name : String
  categories : List Category
  timeframes : List Timeframe
  tasks : List Task
  createdAt : CalDate
  updatedAt : CalDate
  deriving DecidableEq, Repr

/-! ## `timeframeUtils.ts` -/

/-- `LEGACY_TIMEFRAME_RANGES`: hardcoded name-to-range table used as a
fallback when timeframes lack date metadata. -/
def legacyRange : String → Option (CalDate × CalDate)
  | "June-Aug 2025" => some (⟨2025, 5, 1⟩, ⟨2025, 7, 31⟩)
  | "Sept-Nov 2025" => some (⟨2025, 8, 1⟩, ⟨2025, 10, 30⟩)
  | "Dec 2025" => some (⟨2025, 11, 1⟩, ⟨2025, 11, 31⟩)
  | "Jan 2026" => some (⟨2026, 0, 1⟩, ⟨2026, 0, 31⟩)
  | "Feb 1-7" => some (⟨2026, 1, 1⟩, ⟨2026, 1, 7⟩)
  | "Feb 8-14" => some (⟨2026, 1, 8⟩, ⟨2026, 1, 14⟩)
  | "Feb 15-21" => some (⟨2026, 1, 15⟩, ⟨2026, 1, 21⟩)
  | "Feb 22-28" => some (⟨2026, 1, 22⟩, ⟨2026, 1, 28⟩)
  | "Mar 1-7" => some (⟨2026, 2, 1⟩, ⟨2026, 2, 7⟩)
  | "Mar 8-14" => some (⟨2026, 2, 8⟩, ⟨2026, 2, 14⟩)
  | "Mar 15-21" => some (⟨2026, 2, 15⟩, ⟨2026, 2, 21⟩)
  | "Mar 22-31" => some (⟨2026, 2, 22⟩, ⟨2026, 2, 31⟩)
  | "Apr 1-15" => some (⟨2026, 3, 1⟩, ⟨2026, 3, 15⟩)
  | "Apr 16-30" => some (⟨2026, 3, 16⟩, ⟨2026, 3, 30⟩)
  | "May 1-7" => some (⟨2026, 4, 1⟩, ⟨2026, 4, 7⟩)
  | "May 8" => some (⟨2026, 4, 8⟩, ⟨2026, 4, 8⟩)
  | "May 9" => some (⟨2026, 4, 9⟩, ⟨2026, 4, 9⟩)
  | "May 10" => some (⟨2026, 4, 10⟩, ⟨2026, 4, 10⟩)
  | "May 11" => some (⟨2026, 4, 11⟩, ⟨2026, 4, 11⟩)
  | "May 12" => some (⟨2026, 4, 12⟩, ⟨2026, 4, 12⟩)
  | "May 13" => some (⟨2026, 4, 13⟩, ⟨2026, 4, 13⟩)
  | "May 14" => some (⟨2026, 4, 14⟩, ⟨2026, 4, 14⟩)
  | "May 15" => some (⟨2026, 4, 15⟩, ⟨2026, 4, 15⟩)
  | "May 16" => some (⟨2026, 4, 16⟩, ⟨2026, 4, 16⟩)
  | "May 17" => some (⟨2026, 4, 17⟩, ⟨2026, 4, 17⟩)
  | "Fri May 8" => some (⟨2026, 4, 8⟩, ⟨2026, 4, 8⟩)
  | "Sat May 9" => some (⟨2026, 4, 9⟩, ⟨2026, 4, 9⟩)
  | "Sun May 10" => some (⟨2026, 4, 10⟩, ⟨2026, 4, 10⟩)
  | "Mon May 11" => some (⟨2026, 4, 11⟩, ⟨2026, 4, 11⟩)
  | "Tue May 12" => some (⟨2026, 4, 12⟩, ⟨2026, 4, 12⟩)
  | "Wed May 13" => some (⟨2026, 4, 13⟩, ⟨2026, 4, 13⟩)
  | "Thu May 14" => some (⟨2026, 4, 14⟩, ⟨2026, 4, 14⟩)
  | "Fri May 15" => some (⟨2026, 4, 15⟩, ⟨2026, 4, 15⟩)
  | "Sat May 16" => some (⟨2026, 4, 16⟩, ⟨2026, 4, 16⟩)
  | "Sun May 17" => some (⟨2026, 4, 17⟩, ⟨2026, 4, 17⟩)
  | "Post-Wedding" => some (⟨2026, 4, 18⟩, ⟨2026, 11, 31⟩)
  | _ => none

/-- `isDateInTimeframe`: inclusive string comparison of the ISO form of
`date` against the timeframe's metadata.  The JS guard
`!tf.startDate || !tf.endDate` is truthiness: a missing or empty field
disables the match. -/
def isDateInTimeframe (date : CalDate) (tf : Timeframe) : Bool :=
  if strTruthy tf.startDate && strTruthy tf.endDate then
    let dateStr := toISODateString date
    strLe (tf.startDate.getD "") dateStr && strLe dateStr (tf.endDate.getD "")
  else false

/-- `isDateInRange`: inclusive day-granularity range check used by the
legacy fallback (the code truncates all three dates to midnight; our
dates already live at day granularity). -/
def isDateInRange (date s e : CalDate) : Bool :=
  dateLe s date && dateLe date e

/-- The primary pass of `findTimeframeForDate`: first timeframe whose
metadata range contains the date. -/
def findPrimary (date : CalDate) : List Timeframe → Option String
  | [] => none
  | tf :: rest => if isDateInTimeframe date tf then some tf.id else findPrimary date rest

/-- The fallback pass of `findTimeframeForDate`: first timeframe whose
display name appears in the legacy table with a range containing the
date. -/
def findLegacy (date : CalDate) : List Timeframe → Option String
  | [] => none
  | tf :: rest =>
    match legacyRange tf.name with
    | some r => if isDateInRange date r.1 r.2 then some tf.id else findLegacy date rest
    | none => findLegacy date rest

/-- `findTimeframeForDate`: primary metadata pass, then legacy
name-based fallback, else `undefined`. -/
def findTimeframeForDate (date : Option CalDate) (timeframes : List Timeframe) : Option String :=
  match date with
  | none => none
  | some d =>
    match findPrimary d timeframes with
    | some i => some i
    | none => findLegacy d timeframes

/-- en-US short month names as produced by
`toLocaleString("en-US", { month: "short" })`. -/
def monthShortName (m : Int) : String :=
  if m = 0 then "Jan" else if m = 1 then "Feb" else if m = 2 then "Mar"
  else if m = 3 then "Apr" else if m = 4 then "May" else if m = 5 then "Jun"
  else if m = 6 then "Jul" else if m = 7 then "Aug" else if m = 8 then "Sep"
  else if m = 9 then "Oct" else if m = 10 then "Nov" else if m = 11 then "Dec"
  else ""

/-- `generateTimeframeName`: e.g. `Jul 2026`. -/
def generateTimeframeName (date : CalDate) : String :=
  monthShortName date.month ++ " " ++ toString date.year

/-- The start date the order computation resolves for a timeframe:
metadata when the field is truthy (modelled for well-formed ISO
strings), else the legacy table. -/
def resolvedStart (tf : Timeframe) : Option CalDate :=
  match tf.startDate with
  | some s => if s = "" then (legacyRange tf.name).map Prod.fst else parseISODate s
  | none => (legacyRange tf.name).map Prod.fst

/-- The relation `calculateTimeframeOrder` sorts by: ascending resolved
start date.  Ties keep storage order (JS `Array.prototype.sort` is
stable), which `List.insertionSort` with a non-strict relation also
guarantees. -/
def startLe (a b : Timeframe × CalDate) : Prop :=
  dateLe a.2 b.2 = true

instance : DecidableRel startLe := fun a b =>
  inferInstanceAs (Decidable (dateLe a.2 b.2 = true))

instance : IsTotal (Timeframe × CalDate) startLe where
  total a b := by
    simp only [startLe, dateLe, Bool.or_eq_true, Bool.and_eq_true, decide_eq_true_eq]
    omega

instance : IsTrans (Timeframe × CalDate) startLe where
  trans a b c := by
    simp only [startLe, dateLe, Bool.or_eq_true, Bool.and_eq_true, decide_eq_true_eq]
    omega

/-- The dated-and-sorted auxiliary list built by
`calculateTimeframeOrder`: pair each timeframe with its resolved start
date, drop the unresolvable ones, sort ascending by start date
(stable). -/
def datedSorted (timeframes : List Timeframe) : List (Timeframe × CalDate) :=
  List.insertionSort startLe
    (timeframes.filterMap fun tf => (resolvedStart tf).map fun d => (tf, d))

/-- The insertion-point scan of `calculateTimeframeOrder`: index of the
first entry whose start date strictly exceeds `date`, else the length. -/
def insertIdx (date : CalDate) : List (Timeframe × CalDate) → Nat
  | [] => 0
  | p :: rest => if dateLt date p.2 then 0 else insertIdx date rest + 1

/-- `Math.max(0, ...orders)`. -/
def maxOrder0 (timeframes : List Timeframe) : Rat :=
  timeframes.foldl (fun acc tf => max acc tf.order) 0

/-- A placeholder timeframe used only as the default of in-bounds
`List.getD` lookups. -/
def dummyTf : Timeframe := ⟨"", "", 0, none, none, none⟩

/-- `calculateTimeframeOrder`: order key for a new timeframe created for
`date` — before all dated timeframes, after all, or the midpoint of the
two date-neighbours. -/
def calculateTimeframeOrder (date : CalDate) (timeframes : List Timeframe) : Rat :=
  let s := datedSorted timeframes
  match s with
  | [] => maxOrder0 timeframes + 1
  | _ :: _ =>
    let i := insertIdx date s
    if i = 0 then (s.getD 0 (dummyTf, date)).1.order - 1
    else if i = s.length then maxOrder0 timeframes + 1
    else ((s.getD (i - 1) (dummyTf, date)).1.order + (s.getD i (dummyTf, date)).1.order) / 2

/-- `createTimeframeForDate`: a monthly timeframe covering the calendar
month of `date`, with generated name, computed order and explicit
metadata.  `freshId` stands for the impure `generateId()`. -/
def createTimeframeForDate (freshId : String) (date : CalDate) (timeframes : List Timeframe) :
    Timeframe :=
  let lastDay := (jsMakeDate date.year (date.month + 1) 0).day
  { id := freshId
    name := generateTimeframeName date
    order := calculateTimeframeOrder date timeframes
    startDate := some (toISODateString (jsMakeDate date.year date.month 1))
    endDate := some (toISODateString (jsMakeDate date.year date.month lastDay)) }

/-- `MONTH_NAMES` lookup (`parseMonth`): month index for a lowercase
month name, `-1` when unrecognized. -/
def parseMonth (name : String) : Int :=
  match lowerString name with
  | "jan" => 0 | "january" => 0
  | "feb" => 1 | "february" => 1
  | "mar" => 2 | "march" => 2
  | "apr" => 3 | "april" => 3
  | "may" => 4
  | "jun" => 5 | "june" => 5
  | "jul" => 6 | "july" => 6
  | "aug" => 7 | "august" => 7
  | "sep" => 8 | "sept" => 8 | "september" => 8
  | "oct" => 9 | "october" => 9
  | "nov" => 10 | "november" => 10
  | "dec" => 11 | "december" => 11
  | _ => -1

/-- `inferYear`: for the May-2026 wedding, months up to May belong to
2026, later months to 2025. -/
def inferYear (monthName : String) : Int :=
  let monthIndex := parseMonth monthName
  if monthIndex = -1 then 2026
  else if monthIndex ≤ 4 then 2026 else 2025

/-- `[A-Za-z]+` -/
def isAlphaTok (s : String) : Bool :=
  s ≠ "" && s.data.all Char.isAlpha

/-- `\d+` -/
def isDigitTok (s : String) : Bool :=
  s ≠ "" && s.data.all Char.isDigit

/-- The word tokens of a timeframe name.  The regexes in
`parseTimeframeName` are anchored and separate groups with `\s+`, so a
name matches iff it has no leading/trailing whitespace and its
whitespace-separated words fit the pattern; tokenization models `\s` as
the space character (the only whitespace occurring in timeframe
names). -/
def nameTokens (name : String) : Option (List String) :=
  let parts := splitOnChar ' ' name
  if parts.head? = some "" || parts.getLast? = some "" then none
  else some (parts.filter fun p => p ≠ "")

/-- `parseInt` on a digit token. -/
def parseIntTok (s : String) : Int :=
  Int.ofNat ((parseNatTok s).getD 0)

/-- `parseTimeframeName`: the four anchored patterns tried in source
order — week range, (optionally day-prefixed) single day, month + year,
multi-month range.  Note the single-day pattern also captures
`Mon YYYY` names (its `\d+` group matches the year), exactly as the
regex does. -/
def parseTimeframeName (name : String) : Option (CalDate × CalDate) :=
  match nameTokens name with
  | none => none
  | some toks =>
    -- Pattern: "Feb 15-21" (week range within a month)
    let week :=
      match toks with
      | [monthStr, range] =>
        match splitOnChar '-' range with
        | [startDay, endDay] =>
          if isAlphaTok monthStr && isDigitTok startDay && isDigitTok endDay then
            let year := inferYear monthStr
            let monthIndex := parseMonth monthStr
            if monthIndex ≠ -1 then
              some (jsMakeDate year monthIndex (parseIntTok startDay),
                    jsMakeDate year monthIndex (parseIntTok endDay))
            else none
          else none
        | _ => none
      | _ => none
    match week with
    | some r => some r
    | none =>
      -- Pattern: "May 8" or "Fri May 8" (single day)
      let day :=
        match toks with
        | [monthStr, dayStr] =>
          if isAlphaTok monthStr && isDigitTok dayStr then
            let year := inferYear monthStr
            let monthIndex := parseMonth monthStr
            if monthIndex ≠ -1 then
              let d := jsMakeDate year monthIndex (parseIntTok dayStr)
              some (d, d)
            else none
          else none
        | [dow, monthStr, dayStr] =>
          if isAlphaTok dow && dow.length = 3 && isAlphaTok monthStr && isDigitTok dayStr then
            let year := inferYear monthStr
            let monthIndex := parseMonth monthStr
            if monthIndex ≠ -1 then
              let d := jsMakeDate year monthIndex (parseIntTok dayStr)
              some (d, d)
            else none
          else none
        | _ => none
      match day with
      | some r => some r
      | none =>
        -- Pattern: "Jan 2026" (full month with explicit year)
        let monthYear :=
          match toks with
          | [monthStr, yearStr] =>
            if isAlphaTok monthStr && isDigitTok yearStr && yearStr.length = 4 then
              let year := parseIntTok yearStr
              let monthIndex := parseMonth monthStr
              if monthIndex ≠ -1 then
                let lastDay := (jsMakeDate year (monthIndex + 1) 0).day
                some (jsMakeDate year monthIndex 1, jsMakeDate year monthIndex lastDay)
              else none
            else none
          | _ => none
        match monthYear with
        | some r => some r
        | none =>
          -- Pattern: "June-Aug 2025" (multi-month range)
          match toks with
          | [months, yearStr] =>
            match splitOnChar '-' months with
            | [startMonthStr, endMonthStr] =>
              if isAlphaTok startMonthStr && isAlphaTok endMonthStr &&
                  isDigitTok yearStr && yearStr.length = 4 then
                let year := parseIntTok yearStr
                let startMonthIndex := parseMonth startMonthStr
                let endMonthIndex := parseMonth endMonthStr
                if startMonthIndex ≠ -1 && endMonthIndex ≠ -1 then
                  let lastDay := (jsMakeDate year (endMonthIndex + 1) 0).day
                  some (jsMakeDate year startMonthIndex 1, jsMakeDate year endMonthIndex lastDay)
                else none
              else none
            | _ => none
          | _ => none

/-- The per-timeframe body of `backfillTimeframeDates`: fill missing
date metadata from the legacy table, else from name parsing; leave the
timeframe untouched otherwise.  The skip guard
`tf.startDate && tf.endDate` is truthiness. -/
def backfillTimeframe (tf : Timeframe) : Timeframe :=
  if strTruthy tf.startDate && strTruthy tf.endDate then tf
  else
    match legacyRange tf.name with
    | some r =>
      { tf with startDate := some (toISODateString r.1), endDate := some (toISODateString r.2) }
    | none =>
      match parseTimeframeName tf.name with
      | some p =>
        { tf with startDate := some (toISODateString p.1), endDate := some (toISODateString p.2) }
      | none => tf

/-- `backfillTimeframeDates`: backfill every timeframe of the list. -/
def backfillTimeframeDates (timeframes : List Timeframe) : List Timeframe :=
  timeframes.map backfillTimeframe

/-! ## Board store mutations (`src/unnamed/part_007`, `BoardProvider`)

Each mutation builds a new board snapshot and hands it to
`updateBoard`, which stamps `updatedAt` with the mutation time and then
persists (write-through local save plus debounced remote save, modelled
by the session machine below).  The mutation time `now` is an explicit
argument; fresh ids minted by `generateId()` are explicit arguments. -/

/-- `Partial<Task>` — every field optionally overridden.  `dueDate` is
doubled (`'dueDate' in updates` vs. its value): the outer `Option` is
key presence, the inner one is the nullable date. -/
structure TaskUpdates where
  id : Option String := none
  title : Option String := none
  notes : Option String := none
  status : Option TaskStatus := none
  assignee : Option TaskAssignee := none
  priority : Option TaskPriority := none
  categoryId : Option String := none
  timeframeId : Option String := none
  dueDate : Option (Option CalDate) := none
  checklist : Option (List ChecklistItem) := none
  createdAt : Option CalDate := none
  updatedAt : Option CalDate := none
  deriving DecidableEq, Repr

/-- Object spread `{ ...task, ...updates }`. -/
def applyTaskUpdates (t : Task) (u : TaskUpdates) : Task :=
  { id := u.id.getD t.id
    title := u.title.getD t.title
    notes := u.notes.getD t.notes
    status := u.status.getD t.status
    assignee := u.assignee.getD t.assignee
    priority := u.priority.getD t.priority
    categoryId := u.categoryId.getD t.categoryId
    timeframeId := u.timeframeId.getD t.timeframeId
    dueDate := u.dueDate.getD t.dueDate
    checklist := u.checklist.getD t.checklist
    createdAt := u.createdAt.getD t.createdAt
    updatedAt := u.updatedAt.getD t.updatedAt }

/-- The pure board part of `updateBoard`: stamp `updatedAt` with the
mutation time. -/
def updateBoardStamp (now : CalDate) (b : Board) : Board :=
  { b with updatedAt := now }

/-- `updateTask`: apply a partial update to the task with the given id;
when the update sets a non-null `dueDate`, resolve the timeframe and, if
none matches, append a synthesized monthly timeframe in the same
snapshot.  The guard `if (matchingTimeframeId)` is JS truthiness: an
`undefined` result *or an empty-string id* both take the synthesis
branch (`strTruthy`). -/
def updateTask (now : CalDate) (freshId : String) (id : String) (updates : TaskUpdates)
    (b : Board) : Board :=
  let resolved : TaskUpdates × List Timeframe :=
    match updates.dueDate with
    | some (some d) =>
      let matchingTimeframeId := findTimeframeForDate (some d) b.timeframes
      if strTruthy matchingTimeframeId then
        ({ updates with timeframeId := some (matchingTimeframeId.getD "") }, b.timeframes)
      else
        let newTimeframe := createTimeframeForDate freshId d b.timeframes
        ({ updates with timeframeId := some newTimeframe.id },
          b.timeframes ++ [newTimeframe])
    | _ => (updates, b.timeframes)
  updateBoardStamp now
    { b with
      timeframes := resolved.2
      tasks := b.tasks.map fun task =>
        if task.id = id then { applyTaskUpdates task resolved.1 with updatedAt := now }
        else task }

/-- `deleteTask`. -/
def deleteTask (now : CalDate) (id : String) (b : Board) : Board :=
  updateBoardStamp now { b with tasks := b.tasks.filter fun task => task.id ≠ id }

/-- `moveTask`. -/
def moveTask (now : CalDate) (taskId categoryId timeframeId : String) (b : Board) : Board :=
  updateBoardStamp now
    { b with
      tasks := b.tasks.map fun task =>
        if task.id = taskId then
          { task with categoryId := categoryId, timeframeId := timeframeId, updatedAt := now }
        else task }

/-- `Partial<Category>`. -/
structure CategoryUpdates where
  id : Option String := none
  name : Option String := none
  order : Option Rat := none
  deriving DecidableEq, Repr

def applyCategoryUpdates (c : Category) (u : CategoryUpdates) : Category :=
  { id := u.id.getD c.id, name := u.name.getD c.name, order := u.order.getD c.order }

/-- `updateCategory`. -/
def updateCategory (now : CalDate) (id : String) (updates : CategoryUpdates) (b : Board) :
    Board :=
  updateBoardStamp now
    { b with
      categories := b.categories.map fun cat =>
        if cat.id = id then applyCategoryUpdates cat updates else cat }

/-- `deleteCategory`: remove the category and every task referencing it,
in one snapshot. -/
def deleteCategory (now : CalDate) (id : String) (b : Board) : Board :=
  updateBoardStamp now
    { b with
      categories := b.categories.filter fun cat => cat.id ≠ id
      tasks := b.tasks.filter fun task => task.categoryId ≠ id }

/-- `Partial<Timeframe>`. -/
structure TimeframeUpdates where
  id : Option String := none
  name : Option String := none
  order : Option Rat := none
  hidden : Option (Option Bool) := none
  startDate : Option (Option String) := none
  endDate : Option (Option String) := none
  deriving DecidableEq, Repr

def applyTimeframeUpdates (tf : Timeframe) (u : TimeframeUpdates) : Timeframe :=
  { id := u.id.getD tf.id
    name := u.name.getD tf.name
    order := u.order.getD tf.order
    hidden := u.hidden.getD tf.hidden
    startDate := u.startDate.getD tf.startDate
    endDate := u.endDate.getD tf.endDate }

/-- `updateTimeframe`. -/
def updateTimeframe (now : CalDate) (id : String) (updates : TimeframeUpdates) (b : Board) :
    Board :=
  updateBoardStamp now
    { b with
      timeframes := b.timeframes.map fun tf =>
        if tf.id = id then applyTimeframeUpdates tf updates else tf }

/-- `deleteTimeframe`: remove the timeframe and every task referencing
it, in one snapshot. -/
def deleteTimeframe (now : CalDate) (id : String) (b : Board) : Board :=
  updateBoardStamp now
    { b with
      timeframes := b.timeframes.filter fun tf => tf.id ≠ id
      tasks := b.tasks.filter fun task => task.timeframeId ≠ id }

/-- `addChecklistItem`. -/
def addChecklistItem (now : CalDate) (freshId : String) (taskId title : String) (b : Board) :
    Board :=
  let newItem : ChecklistItem := ⟨freshId, title, false⟩
  updateBoardStamp now
    { b with
      tasks := b.tasks.map fun task =>
        if task.id = taskId then
          { task with checklist := task.checklist ++ [newItem], updatedAt := now }
        else task }

/-- `Partial<ChecklistItem>`. -/
structure ChecklistItemUpdates where
  id : Option String := none
  title : Option String := none
  completed : Option Bool := none
  deriving DecidableEq, Repr

def applyChecklistItemUpdates (it : ChecklistItem) (u : ChecklistItemUpdates) : ChecklistItem :=
  { id := u.id.getD it.id, title := u.title.getD it.title,
    completed := u.completed.getD it.completed }

/-- `updateChecklistItem`. -/
def updateChecklistItem (now : CalDate) (taskId itemId : String) (updates : ChecklistItemUpdates)
    (b : Board) : Board :=
  updateBoardStamp now
    { b with
      tasks := b.tasks.map fun task =>
        if task.id = taskId then
          { task with
            checklist := task.checklist.map fun item =>
              if item.id = itemId then applyChecklistItemUpdates item updates else item
            updatedAt := now }
        else task }

/-- `deleteChecklistItem`. -/
def deleteChecklistItem (now : CalDate) (taskId itemId : String) (b : Board) : Board :=
  updateBoardStamp now
    { b with
      tasks := b.tasks.map fun task =>
        if task.id = taskId then
          { task with
            checklist := task.checklist.filter fun item => item.id ≠ itemId
            updatedAt := now }
        else task }

/-! ## Column reordering (`TimeframeHeader.tsx`) -/

/-- Ordering relation for `sort((a, b) => a.order - b.order)` (stable
ascending sort). -/
def orderLe (a b : Timeframe) : Prop :=
  a.order ≤ b.order

instance : DecidableRel orderLe := fun a b =>
  inferInstanceAs (Decidable (a.order ≤ b.order))

instance : IsTotal Timeframe orderLe where
  total a b := le_total a.order b.order

instance : IsTrans Timeframe orderLe where
  trans _ _ _ := le_trans

/-- `[...board.timeframes].sort((a, b) => a.order - b.order)`. -/
def sortByOrder (timeframes : List Timeframe) : List Timeframe :=
  List.insertionSort orderLe timeframes

/-- JS `Array.prototype.findIndex`, with `-1` modelled as `none`. -/
def findIndexOpt (p : α → Bool) : List α → Option Nat
  | [] => none
  | a :: as => if p a then some 0 else (findIndexOpt p as).map (· + 1)

/-- `handleMoveTimeframeLeft`: swap the order keys of the target and its
immediate left neighbour in order-sorted sequence; no-op when the target
is absent or already first (`index <= 0`). -/
def moveTimeframeLeft (id : String) (timeframes : List Timeframe) : List Timeframe :=
  let sorted := sortByOrder timeframes
  match findIndexOpt (fun t => t.id = id) sorted with
  | none => timeframes
  | some 0 => timeframes
  | some (i + 1) =>
    let current := sorted.getD (i + 1) dummyTf
    let previous := sorted.getD i dummyTf
    timeframes.map fun t =>
      if t.id = current.id then { t with order := previous.order }
      else if t.id = previous.id then { t with order := current.order }
      else t

/-- `handleMoveTimeframeRight`: swap with the immediate right neighbour;
no-op when the target is absent or already last. -/
def moveTimeframeRight (id : String) (timeframes : List Timeframe) : List Timeframe :=
  let sorted := sortByOrder timeframes
  match findIndexOpt (fun t => t.id = id) sorted with
  | none => timeframes
  | some i =>
    if i ≥ sorted.length - 1 then timeframes
    else
      let current := sorted.getD i dummyTf
      let next := sorted.getD (i + 1) dummyTf
      timeframes.map fun t =>
        if t.id = current.id then { t with order := next.order }
        else if t.id = next.id then { t with order := current.order }
        else t

/-! ## Local cache serialization (`saveToStorage` / `loadFromStorage`)

`saveToStorage` is `JSON.stringify`; `loadFromStorage` is `JSON.parse`
followed by defensive normalization and date-metadata backfill.  The
`Stored*` structures are the JSON shape: fields the loader defaults are
`Option`s (`JSON.stringify` drops `undefined`-valued fields, and legacy
documents may simply lack them).  Date-valued fields serialize to ISO
instant strings and re-hydrate with `new Date(string)`, a bijection on
the instants involved, so they are modelled by the `CalDate` itself. -/

structure StoredTask where
  id : String
  title : String
  notes : Option String
  status : Option TaskStatus
  assignee : Option TaskAssignee
  priority : Option TaskPriority
  categoryId : String
  timeframeId : String
  dueDate : Option CalDate
  checklist : Option (List ChecklistItem)
  createdAt : CalDate
  updatedAt : CalDate
  deriving DecidableEq, Repr

structure StoredCategory where
  id : String
  name : Option String
  order : Option Rat
  deriving DecidableEq, Repr

structure StoredTimeframe where
  id : String
  name : Option String
  order : Option Rat
  hidden : Option Bool
  startDate : Option String
  endDate : Option String
  deriving DecidableEq, Repr

structure StoredBoard where
  id : String
  name : String
  categories : Option (List StoredCategory)
  timeframes : Option (List StoredTimeframe)
  tasks : Option (List StoredTask)
  createdAt : CalDate
  updatedAt : CalDate
  deriving DecidableEq, Repr

/-- `JSON.stringify` on a well-typed board (`saveToStorage`). -/
def storeTask (t : Task) : StoredTask :=
  ⟨t.id, t.title, some t.notes, some t.status, some t.assignee, some t.priority,
    t.categoryId, t.timeframeId, t.dueDate, some t.checklist, t.createdAt, t.updatedAt⟩

def storeCategory (c : Category) : StoredCategory :=
  ⟨c.id, some c.name, some c.order⟩

def storeTimeframe (tf : Timeframe) : StoredTimeframe :=
  ⟨tf.id, some tf.name, some tf.order, tf.hidden, tf.startDate, tf.endDate⟩

def storeBoard (b : Board) : StoredBoard :=
  ⟨b.id, b.name, some (b.categories.map storeCategory),
    some (b.timeframes.map storeTimeframe), some (b.tasks.map storeTask),
    b.createdAt, b.updatedAt⟩

/-- How JS renders the order key into the generated placeholder name
(`Timeframe ${order}` / `Category ${order}`).  Exact for integral keys —
the only case the verified claims evaluate. -/
def ratNumToString (q : Rat) : String :=
  if q.den = 1 then toString q.num else toString q

/-- `loadFromStorage` normalization of one task: defensive defaults for
list and enum fields. -/
def loadTask (t : StoredTask) : Task :=
  { id := t.id
    title := t.title
    notes := t.notes.getD ""
    status := t.status.getD .not_started
    assignee := t.assignee.getD .unassigned
    priority := t.priority.getD .normal
    categoryId := t.categoryId
    timeframeId := t.timeframeId
    dueDate := t.dueDate
    checklist := t.checklist.getD []
    createdAt := t.createdAt
    updatedAt := t.updatedAt }

/-- Normalization of one category (`cat.name || defaultName`,
`cat.order ?? 0`; `||` treats the empty string as missing). -/
def loadCategory (c : StoredCategory) : Category :=
  { id := c.id
    name :=
      match c.name with
      | some n => if n = "" then "Category " ++ ratNumToString (c.order.getD 0) else n
      | none => "Category " ++ ratNumToString (c.order.getD 0)
    order := c.order.getD 0 }

/-- Normalization of one timeframe (date metadata passed through;
backfill happens on the whole list afterwards). -/
def loadTimeframe (tf : StoredTimeframe) : Timeframe :=
  { id := tf.id
    name :=
      match tf.name with
      | some n => if n = "" then "Timeframe " ++ ratNumToString (tf.order.getD 0) else n
      | none => "Timeframe " ++ ratNumToString (tf.order.getD 0)
    order := tf.order.getD 0
    hidden := tf.hidden
    startDate := tf.startDate
    endDate := tf.endDate }

/-- `loadFromStorage` on a parsed document: normalize every record,
then auto-backfill timeframe date metadata. -/
def loadStoredBoard (sb : StoredBoard) : Board :=
  { id := sb.id
    name := sb.name
    timeframes := backfillTimeframeDates (((sb.timeframes.getD []).map loadTimeframe))
    categories := (sb.categories.getD []).map loadCategory
    tasks := (sb.tasks.getD []).map loadTask
    createdAt := sb.createdAt
    updatedAt := sb.updatedAt }

/-! ## Persistence orchestrator session machine (`BoardProvider`)

The orchestrator's asynchronous behaviour is modelled as a transition
system.  A `mutate` event is a store mutation reaching `updateBoard`:
the stamped snapshot is dispatched to the in-memory state, written
through to the local cache, and handed to `debouncedFirebaseSave`,
which (when Firebase is configured) cancels any pending timer and arms
a fresh one holding exactly this snapshot — a single-slot pending
write.  A `timerFire` event is the debounce timer elapsing: the held
snapshot is written remotely and the slot cleared (`saveBoard` is
invoked; the status transition to `syncing` happens in the callback).
When Firebase is unconfigured `debouncedFirebaseSave` returns before
touching the timer, so `mutate` never arms the slot. -/

inductive SyncStatus where
  | synced | syncing | offline | error
  deriving DecidableEq, Repr

structure SessionState where
  board : Option Board
  syncStatus : SyncStatus
  localCache : Option Board
  pendingWrite : Option Board
  remoteWrites : List Board
  subscribed : Bool
  deriving DecidableEq, Repr

inductive SessionEvent where
  | mutate (now : CalDate) (newBoard : Board)
  | timerFire
  deriving DecidableEq, Repr

/-- One orchestrator step. `configured` is `isFirebaseConfigured`,
checked once per session. -/
def sessionStep (configured : Bool) (s : SessionState) : SessionEvent → SessionState
  | .mutate now newBoard =>
    let boardWithTimestamp := updateBoardStamp now newBoard
    { s with
      board := some boardWithTimestamp
      localCache := some boardWithTimestamp
      pendingWrite := if configured then some boardWithTimestamp else s.pendingWrite }
  | .timerFire =>
    match s.pendingWrite with
    | none => s
    | some b =>
      { s with
        syncStatus := .syncing
        pendingWrite := none
        remoteWrites := s.remoteWrites ++ [b] }

/-- The unconfigured startup path of the init effect: load the local
cache (else seed), set status `offline`, never subscribe. -/
def initLocalOnly (initialBoard : Board) : SessionState :=
  { board := some initialBoard
    syncStatus := .offline
    localCache := some initialBoard
    pendingWrite := none
    remoteWrites := []
    subscribed := false }

/-- A session run: fold the step over a list of events. -/
def sessionRun (configured : Bool) (s : SessionState) (events : List SessionEvent) :
    SessionState :=
  events.foldl (sessionStep configured) s

/-! ## Helper lemmas -/

theorem jsYearAdjust_of_full (y : Int) (hy : ¬(0 ≤ y ∧ y ≤ 99)) : jsYearAdjust y = y := by
  unfold jsYearAdjust
  rw [if_neg]
  simpa using hy

theorem fdiv_twelve (y m : Int) (h1 : 0 ≤ m) (h2 : m < 12) : (y * 12 + m).fdiv 12 = y := by
  rw [Int.fdiv_eq_ediv _ (by norm_num : (0 : Int) ≤ 12)]
  omega

theorem normDay_in_range (fuel : Nat) (y m d : Int) (hf : 0 < fuel) (h1 : 1 ≤ d)
    (h2 : d ≤ daysInMonth y m) : normDay fuel y m d = ⟨y, m, d⟩ := by
  match fuel, hf with
  | fuel + 1, _ =>
    unfold normDay
    rw [if_neg (by omega), if_neg (by omega)]

theorem jsMakeDate_in_range (y m d : Int) (hm1 : 0 ≤ m) (hm2 : m < 12) (hd1 : 1 ≤ d)
    (hd2 : d ≤ daysInMonth (jsYearAdjust y) m) :
    jsMakeDate y m d = ⟨jsYearAdjust y, m, d⟩ := by
  unfold jsMakeDate
  rw [fdiv_twelve (jsYearAdjust y) m hm1 hm2]
  have hm' : jsYearAdjust y * 12 + m - 12 * jsYearAdjust y = m := by ring
  rw [hm']
  exact normDay_in_range _ (jsYearAdjust y) m d (by omega) hd1 hd2

theorem jsMakeDate_first_of_month (y m : Int) (hm1 : 0 ≤ m) (hm2 : m < 12) :
    jsMakeDate y m 1 = ⟨jsYearAdjust y, m, 1⟩ :=
  jsMakeDate_in_range y m 1 hm1 hm2 (by omega)
    (le_trans (by norm_num) (daysInMonth_ge_28 (jsYearAdjust y) m))

theorem normDay_borrow (fuel : Nat) (y m : Int) (hf : 1 < fuel) (hm1 : 0 ≤ m) (hm2 : m < 12) :
    normDay fuel y (m + 1) 0 = ⟨y, m, daysInMonth y m⟩ := by
  match fuel, hf with
  | fuel + 1, hf =>
    unfold normDay
    rw [if_pos (by omega), if_neg (by omega)]
    have hmz : ¬(m + 1 = 0) := by omega
    simp only [hmz, if_false, add_sub_cancel_right, zero_add]
    exact normDay_in_range fuel y m (daysInMonth y m) (by omega) (daysInMonth_pos y m) le_rfl

/-- `new Date(y, m + 1, 0)` is the last day of 0-based month `m` of the
(two-digit-rule-adjusted) year. -/
theorem jsMakeDate_last_of_month (y m : Int) (hm1 : 0 ≤ m) (hm2 : m < 12) :
    jsMakeDate y (m + 1) 0
      = ⟨jsYearAdjust y, m, daysInMonth (jsYearAdjust y) m⟩ := by
  unfold jsMakeDate
  by_cases h11 : m = 11
  · subst h11
    have h1 : jsYearAdjust y * 12 + (11 + 1) = (jsYearAdjust y + 1) * 12 + 0 := by ring
    rw [h1, fdiv_twelve (jsYearAdjust y + 1) 0 le_rfl (by norm_num)]
    have h2 : (jsYearAdjust y + 1) * 12 + 0 - 12 * (jsYearAdjust y + 1) = 0 := by ring
    rw [h2]
    show normDay 13 (jsYearAdjust y + 1) 0 0 = _
    unfold normDay
    rw [if_pos (by omega)]
    simp only [if_pos rfl]
    have h31 : daysInMonth (jsYearAdjust y) 11 = 31 := by unfold daysInMonth; norm_num
    rw [h31]
    have := normDay_in_range 12 (jsYearAdjust y) 11 (0 + 31) (by omega) (by omega)
      (by rw [h31]; omega)
    simpa using this
  · rw [fdiv_twelve (jsYearAdjust y) (m + 1) (by omega) (by omega)]
    have h2 : jsYearAdjust y * 12 + (m + 1) - 12 * jsYearAdjust y = m + 1 := by ring
    rw [h2]
    exact normDay_borrow 13 (jsYearAdjust y) m (by omega) hm1 hm2

/-- The synthesized monthly timeframe: explicit start/end metadata are
the ISO forms of the first and last day of the month that the JS `Date`
constructor maps `(date.year, date.month)` to — `date.year` itself
outside 0..99, `date.year + 1900` for two-digit years. -/
theorem createTimeframeForDate_month_span (freshId : String) (date : CalDate)
    (timeframes : List Timeframe) (hm1 : 0 ≤ date.month) (hm2 : date.month < 12) :
    (createTimeframeForDate freshId date timeframes).startDate
        = some (toISODateString ⟨jsYearAdjust date.year, date.month, 1⟩) ∧
      (createTimeframeForDate freshId date timeframes).endDate
        = some (toISODateString
          ⟨jsYearAdjust date.year, date.month,
            daysInMonth (jsYearAdjust date.year) date.month⟩) ∧
      (createTimeframeForDate freshId date timeframes).id = freshId ∧
      (createTimeframeForDate freshId date timeframes).name = generateTimeframeName date ∧
      (createTimeframeForDate freshId date timeframes).order
        = calculateTimeframeOrder date timeframes := by
  have h1 := jsMakeDate_first_of_month date.year date.month hm1 hm2
  have h2 := jsMakeDate_last_of_month date.year date.month hm1 hm2
  have h3 := jsMakeDate_in_range date.year date.month
    (daysInMonth (jsYearAdjust date.year) date.month) hm1 hm2
    (daysInMonth_pos (jsYearAdjust date.year) date.month) le_rfl
  simp [createTimeframeForDate, h1, h2, h3]

theorem length_filter_not_add (l : List α) (p : α → Bool) :
    (l.filter fun a => !(p a)).length + (l.filter p).length = l.length := by
  induction l with
  | nil => rfl
  | cons a as ih =>
    by_cases h : p a <;> simp [List.filter_cons, h] <;> omega

theorem length_filter_not_lt (l : List α) (p : α → Bool) (a : α) (ha : a ∈ l)
    (hpa : p a = true) : (l.filter fun x => !(p x)).length < l.length := by
  induction l with
  | nil => simp at ha
  | cons b bs ih =>
    have hle : (bs.filter fun x => !(p x)).length ≤ bs.length := List.length_filter_le _ _
    rcases List.mem_cons.mp ha with rfl | hmem
    · simp [List.filter_cons, hpa]
      omega
    · have hlt := ih hmem
      by_cases hb : p b <;> simp [List.filter_cons, hb] <;> omega

theorem filter_eq_self_of (l : List α) (p : α → Bool) (h : ∀ a ∈ l, p a = true) :
    l.filter p = l := by
  induction l with
  | nil => rfl
  | cons a as ih =>
    rw [List.filter_cons, if_pos (h a (List.mem_cons_self a as))]
    rw [ih fun b hb => h b (List.mem_cons_of_mem a hb)]

theorem map_eq_self_of (l : List α) (f : α → α) (h : ∀ a ∈ l, f a = a) :
    l.map f = l := by
  induction l with
  | nil => rfl
  | cons a as ih =>
    rw [List.map_cons, h a (List.mem_cons_self a as),
      ih fun b hb => h b (List.mem_cons_of_mem a hb)]

theorem findIndexOpt_none_iff (p : α → Bool) (l : List α) :
    findIndexOpt p l = none ↔ ∀ a ∈ l, p a = false := by
  induction l with
  | nil => simp [findIndexOpt]
  | cons a as ih =>
    by_cases h : p a <;> simp [findIndexOpt, h, ih]

theorem findIndexOpt_lt_length (p : α → Bool) (l : List α) (i : Nat)
    (h : findIndexOpt p l = some i) : i < l.length := by
  induction l generalizing i with
  | nil => simp [findIndexOpt] at h
  | cons a as ih =>
    simp only [List.length_cons]
    by_cases hp : p a
    · simp [findIndexOpt, hp] at h
      omega
    · simp [findIndexOpt, hp] at h
      obtain ⟨j, hj, hji⟩ := h
      have := ih j hj
      omega

theorem findIndexOpt_found (p : α → Bool) (l : List α) (i : Nat) (dflt : α)
    (h : findIndexOpt p l = some i) : p (l.getD i dflt) = true := by
  induction l generalizing i with
  | nil => simp [findIndexOpt] at h
  | cons a as ih =>
    by_cases hp : p a
    · simp [findIndexOpt, hp] at h
      subst h
      simpa using hp
    · simp [findIndexOpt, hp] at h
      obtain ⟨j, hj, hji⟩ := h
      subst hji
      simpa [List.getD_cons_succ] using ih j hj

/-! ## Concrete fixtures used by witnesses and counterexamples -/

/-- A concrete board: two categories, two timeframes, three tasks — two
referencing category `c1` and timeframe `tf1`. -/
def witnessBoardC2 : Board :=
  { id := "board"
    name := "Wedding"
    categories := [⟨"c1", "Venue", 0⟩, ⟨"c2", "Food", 1⟩]
    timeframes :=
      [⟨"tf1", "Jan 2026", 0, none, some "2026-01-01", some "2026-01-31"⟩,
        ⟨"tf2", "Feb 2026", 1, none, some "2026-02-01", some "2026-02-28"⟩]
    tasks :=
      [⟨"t1", "Book venue", "", .not_started, .unassigned, .normal, "c1", "tf1", none, [],
          ⟨2026, 0, 1⟩, ⟨2026, 0, 1⟩⟩,
        ⟨"t2", "Taste menu", "", .in_progress, .bride, .high, "c1", "tf1", none, [],
          ⟨2026, 0, 1⟩, ⟨2026, 0, 1⟩⟩,
        ⟨"t3", "Send invites", "", .not_started, .groom, .normal, "c2", "tf2", none, [],
          ⟨2026, 0, 1⟩, ⟨2026, 0, 1⟩⟩]
    createdAt := ⟨2026, 0, 1⟩
    updatedAt := ⟨2026, 0, 1⟩ }

/-! ## Claims -/

/-- C2: deleting a category (resp. timeframe) whose id is present in the
board removes the entity and, in the same single snapshot, exactly the
K tasks referencing it — the result has exactly K fewer tasks, no task
referencing the deleted id, and the entity gone; the sibling collection
is untouched.  Both cascades are one pure snapshot transition
(`updateBoard` is called once with the fully filtered board), so no
intermediate board with orphaned tasks is observable. -/
theorem cascade_delete_removes_exactly_references (b : Board) (now : CalDate)
    (cid tid : String) (hc : cid ∈ b.categories.map Category.id)
    (ht : tid ∈ b.timeframes.map Timeframe.id) :
    ((deleteCategory now cid b).tasks.length
        + (b.tasks.filter fun t => t.categoryId = cid).length = b.tasks.length
      ∧ (∀ t ∈ (deleteCategory now cid b).tasks, t.categoryId ≠ cid)
      ∧ (∀ c ∈ (deleteCategory now cid b).categories, c.id ≠ cid)
      ∧ (deleteCategory now cid b).categories.length < b.categories.length
      ∧ (deleteCategory now cid b).timeframes = b.timeframes)
    ∧ ((deleteTimeframe now tid b).tasks.length
        + (b.tasks.filter fun t => t.timeframeId = tid).length = b.tasks.length
      ∧ (∀ t ∈ (deleteTimeframe now tid b).tasks, t.timeframeId ≠ tid)
      ∧ (∀ tf ∈ (deleteTimeframe now tid b).timeframes, tf.id ≠ tid)
      ∧ (deleteTimeframe now tid b).timeframes.length < b.timeframes.length
      ∧ (deleteTimeframe now tid b).categories = b.categories) := by
  obtain ⟨c, hcmem, hcid⟩ := List.mem_map.mp hc
  obtain ⟨tf, htmem, htid⟩ := List.mem_map.mp ht
  simp only [deleteCategory, deleteTimeframe, updateBoardStamp, ne_eq, decide_not]
  refine ⟨⟨?_, ?_, ?_, ?_, trivial⟩, ?_, ?_, ?_, ?_, trivial⟩
  · exact length_filter_not_add b.tasks fun t => decide (t.categoryId = cid)
  · intro t h
    simpa using (List.mem_filter.mp h).2
  · intro x h
    simpa using (List.mem_filter.mp h).2
  · exact length_filter_not_lt b.categories (fun x => decide (x.id = cid)) c hcmem
      (by simp [hcid])
  · exact length_filter_not_add b.tasks fun t => decide (t.timeframeId = tid)
  · intro t h
    simpa using (List.mem_filter.mp h).2
  · intro x h
    simpa using (List.mem_filter.mp h).2
  · exact length_filter_not_lt b.timeframes (fun x => decide (x.id = tid)) tf htmem
      (by simp [htid])

/-- Witness for `cascade_delete_removes_exactly_references` at a
concrete board: two categories, one timeframe, three tasks of which two
reference the deleted category. -/
theorem cascade_delete_removes_exactly_references_witness :
    ((deleteCategory ⟨2026, 0, 2⟩ "c1" witnessBoardC2).tasks.length
        + (witnessBoardC2.tasks.filter fun t => t.categoryId = "c1").length
        = witnessBoardC2.tasks.length
      ∧ (∀ t ∈ (deleteCategory ⟨2026, 0, 2⟩ "c1" witnessBoardC2).tasks, t.categoryId ≠ "c1")
      ∧ (∀ c ∈ (deleteCategory ⟨2026, 0, 2⟩ "c1" witnessBoardC2).categories, c.id ≠ "c1")
      ∧ (deleteCategory ⟨2026, 0, 2⟩ "c1" witnessBoardC2).categories.length
        < witnessBoardC2.categories.length
      ∧ (deleteCategory ⟨2026, 0, 2⟩ "c1" witnessBoardC2).timeframes
        = witnessBoardC2.timeframes)
    ∧ ((deleteTimeframe ⟨2026, 0, 2⟩ "tf1" witnessBoardC2).tasks.length
        + (witnessBoardC2.tasks.filter fun t => t.timeframeId = "tf1").length
        = witnessBoardC2.tasks.length
      ∧ (∀ t ∈ (deleteTimeframe ⟨2026, 0, 2⟩ "tf1" witnessBoardC2).tasks,
          t.timeframeId ≠ "tf1")
      ∧ (∀ tf ∈ (deleteTimeframe ⟨2026, 0, 2⟩ "tf1" witnessBoardC2).timeframes,
          tf.id ≠ "tf1")
      ∧ (deleteTimeframe ⟨2026, 0, 2⟩ "tf1" witnessBoardC2).timeframes.length
        < witnessBoardC2.timeframes.length
      ∧ (deleteTimeframe ⟨2026, 0, 2⟩ "tf1" witnessBoardC2).categories
        = witnessBoardC2.categories) :=
  cascade_delete_removes_exactly_references witnessBoardC2 ⟨2026, 0, 2⟩ "c1" "tf1"
    (by decide) (by decide)

theorem findPrimary_eq_find? (d : CalDate) (ts : List Timeframe) :
    findPrimary d ts = (ts.find? fun t => isDateInTimeframe d t).map Timeframe.id := by
  induction ts with
  | nil => rfl
  | cons tf rest ih =>
    by_cases h : isDateInTimeframe d tf <;> simp [findPrimary, List.find?_cons, h, ih]

/-- C10: `findTimeframeForDate` is deterministic and breaks ties by
array position — whenever the primary scan finds any containing
timeframe, the result is the id of the first one in storage order,
irrespective of order keys; and a timeframe carrying only one of
`startDate`/`endDate` is never matched by the primary pass. -/
theorem findTimeframeForDate_first_match_and_requires_both_dates (d : CalDate)
    (ts : List Timeframe) :
    (∀ tf : Timeframe, (ts.find? fun t => isDateInTimeframe d t) = some tf →
      findTimeframeForDate (some d) ts = some tf.id)
    ∧ (∀ tf : Timeframe, tf.startDate = none ∨ tf.endDate = none →
      isDateInTimeframe d tf = false) := by
  constructor
  · intro tf h
    simp only [findTimeframeForDate, findPrimary_eq_find?, h]
    rfl
  · intro tf h
    rcases h with h | h <;> simp [isDateInTimeframe, strTruthy, h]

/-- A timeframe list for the C10 witness: the first and second both
contain 2026-01-15, the second has the smaller order key, and the third
carries only a start date. -/
def witnessTfsC10 : List Timeframe :=
  [⟨"X", "first", 5, none, some "2026-01-01", some "2026-01-31"⟩,
    ⟨"Y", "second", 1, none, some "2026-01-01", some "2026-01-31"⟩,
    ⟨"Z", "half", 0, none, some "2026-01-01", none⟩]

/-- Witness: with two containing timeframes the one first in storage
order wins even though the other has a smaller order key, and the
start-only timeframe is not matched by the primary pass. -/
theorem findTimeframeForDate_first_match_and_requires_both_dates_witness :
    findTimeframeForDate (some ⟨2026, 0, 15⟩) witnessTfsC10 = some "X"
    ∧ isDateInTimeframe ⟨2026, 0, 15⟩ ⟨"Z", "half", 0, none, some "2026-01-01", none⟩
      = false :=
  ⟨(findTimeframeForDate_first_match_and_requires_both_dates ⟨2026, 0, 15⟩ witnessTfsC10).1
      ⟨"X", "first", 5, none, some "2026-01-01", some "2026-01-31"⟩ (by decide),
    (findTimeframeForDate_first_match_and_requires_both_dates ⟨2026, 0, 15⟩ witnessTfsC10).2
      ⟨"Z", "half", 0, none, some "2026-01-01", none⟩ (Or.inr rfl)⟩

/-- Fixture refuting the literal C6 trigger condition: the first
timeframe carries explicit date metadata (February 2026), the second
has none but its display name is in the legacy table with a January
2026 range. -/
def cexTfsC6 : List Timeframe :=
  [⟨"A", "X", 0, none, some "2026-02-01", some "2026-02-28"⟩,
    ⟨"B", "Jan 2026", 1, none, none, none⟩]

/-- C6 counterexample: the claim says the legacy-name pass runs *only
if no timeframe in the list carries explicit date metadata*, which
would make this lookup fail (timeframe A carries metadata and the
primary pass finds nothing for 2026-01-15).  The code still runs the
legacy pass and returns B. -/
theorem findTimeframeForDate_legacy_despite_metadata :
    findTimeframeForDate (some ⟨2026, 0, 15⟩) cexTfsC6 = some "B"
    ∧ (∃ tf ∈ cexTfsC6, tf.startDate ≠ none ∧ tf.endDate ≠ none)
    ∧ findPrimary ⟨2026, 0, 15⟩ cexTfsC6 = none := by
  decide

/-- C6 (amended): the primary pass returns the id of a timeframe whose
inclusive `[startDate, endDate]` range (calendar-day granularity)
contains the date; the secondary legacy-name pass runs whenever the
primary pass finds no match — regardless of whether other timeframes
carry explicit metadata; a null date or two failing passes give no
match (`undefined`). -/
theorem findTimeframeForDate_two_pass_characterization (dOpt : Option CalDate)
    (ts : List Timeframe) :
    (dOpt = none → findTimeframeForDate dOpt ts = none)
    ∧ (∀ d x, dOpt = some d → findPrimary d ts = some x →
      findTimeframeForDate dOpt ts = some x
        ∧ ∃ tf ∈ ts, tf.id = x ∧ isDateInTimeframe d tf = true)
    ∧ (∀ d, dOpt = some d → findPrimary d ts = none →
      findTimeframeForDate dOpt ts = findLegacy d ts)
    ∧ (∀ d, dOpt = some d → findPrimary d ts = none → findLegacy d ts = none →
      findTimeframeForDate dOpt ts = none) := by
  refine ⟨?_, ?_, ?_, ?_⟩
  · rintro rfl
    rfl
  · rintro d x rfl h
    refine ⟨by simp [findTimeframeForDate, h], ?_⟩
    rw [findPrimary_eq_find?] at h
    obtain ⟨tf, htf, hid⟩ := Option.map_eq_some'.mp h
    exact ⟨tf, List.mem_of_find?_eq_some htf, hid, List.find?_some htf⟩
  · rintro d rfl h
    simp [findTimeframeForDate, h]
  · rintro d rfl h hl
    simp [findTimeframeForDate, h, hl]

/-- Witness for the amended C6 characterization: a date inside
timeframe A's metadata range resolves through the primary pass, and the
2026-01-15 lookup falls through to the legacy pass. -/
theorem findTimeframeForDate_two_pass_characterization_witness :
    findTimeframeForDate (some ⟨2026, 1, 10⟩) cexTfsC6 = some "A"
    ∧ findTimeframeForDate (some ⟨2026, 0, 15⟩) cexTfsC6
      = findLegacy ⟨2026, 0, 15⟩ cexTfsC6 :=
  ⟨((findTimeframeForDate_two_pass_characterization (some ⟨2026, 1, 10⟩) cexTfsC6).2.1
      ⟨2026, 1, 10⟩ "A" rfl (by decide)).1,
    (findTimeframeForDate_two_pass_characterization (some ⟨2026, 0, 15⟩) cexTfsC6).2.2.1
      ⟨2026, 0, 15⟩ rfl (by decide)⟩

theorem insertIdx_spec (d : CalDate) (l : List (Timeframe × CalDate)) :
    (∀ j, j < insertIdx d l → dateLt d ((l.getD j (dummyTf, d)).2) = false)
    ∧ (insertIdx d l < l.length → dateLt d ((l.getD (insertIdx d l) (dummyTf, d)).2) = true) := by
  induction l with
  | nil => exact ⟨fun j hj => by simp [insertIdx] at hj, fun h => by simp [insertIdx] at h⟩
  | cons p rest ih =>
    by_cases hp : dateLt d p.2
    · refine ⟨fun j hj => ?_, fun _ => ?_⟩
      · simp [insertIdx, hp] at hj
      · simp [insertIdx, hp]
    · refine ⟨fun j hj => ?_, fun h => ?_⟩
      · simp [insertIdx, hp] at hj
        match j with
        | 0 => simpa using eq_false_of_ne_true (fun c => hp c)
        | j + 1 =>
          rw [List.getD_cons_succ]
          exact ih.1 j (by omega)
      · simp [insertIdx, hp] at h
        simp only [insertIdx, List.getD_cons_succ]
        rw [if_neg hp]
        rw [List.getD_cons_succ]
        exact ih.2 (by omega)

/-- Fixture refuting the final C5 clause: the timeframes are dated
January / March / May 2026 but carry order keys 0, 2, 1 — the date
order and the order keys disagree. -/
def cexTfsC5 : List Timeframe :=
  [⟨"t1", "a", 0, none, some "2026-01-01", some "2026-01-31"⟩,
    ⟨"t2", "b", 2, none, some "2026-03-01", some "2026-03-31"⟩,
    ⟨"t3", "c", 1, none, some "2026-05-01", some "2026-05-31"⟩]

/-- C5 counterexample: inserting a February 2026 date falls between the
January timeframe (order 0) and the March timeframe (order 2) in
date-sorted sequence, so the midpoint is (0 + 2) / 2 = 1 — which
*equals the existing sibling order* of the May timeframe.  The claim's
"never equals an existing sibling order" is false. -/
theorem calculateTimeframeOrder_midpoint_collides :
    calculateTimeframeOrder ⟨2026, 1, 10⟩ cexTfsC5 = 1
    ∧ (∃ tf ∈ cexTfsC5, tf.order = 1)
    ∧ insertIdx ⟨2026, 1, 10⟩ (datedSorted cexTfsC5) = 1
    ∧ (datedSorted cexTfsC5).length = 3 := by
  refine ⟨?_, by decide, by decide, by decide⟩
  have h : calculateTimeframeOrder ⟨2026, 1, 10⟩ cexTfsC5 = ((0 : Rat) + 2) / 2 := rfl
  rw [h]
  norm_num

/-- C5 (amended): `calculateTimeframeOrder` considers the timeframes
with a resolvable start date, sorted ascending by start date (a stable
sort of exactly that sublist); the insertion point is the first whose
start date strictly exceeds the given date.  Inserting before all gives
the earliest-dated timeframe's order minus one; after all gives
`Math.max(0, all orders) + 1`; between two neighbours gives their order
midpoint, which lies strictly between the two neighbours' orders
whenever those are distinct (it can, however, coincide with the order
of a timeframe that is not one of the two date-neighbours — see the
counterexample). -/
theorem calculateTimeframeOrder_insertion_cases (d : CalDate) (ts : List Timeframe) :
    List.Sorted startLe (datedSorted ts)
    ∧ (datedSorted ts).Perm (ts.filterMap fun tf => (resolvedStart tf).map fun s => (tf, s))
    ∧ (datedSorted ts = [] → calculateTimeframeOrder d ts = maxOrder0 ts + 1)
    ∧ (∀ j, j < insertIdx d (datedSorted ts) →
        dateLt d ((datedSorted ts).getD j (dummyTf, d)).2 = false)
    ∧ (insertIdx d (datedSorted ts) < (datedSorted ts).length →
        dateLt d ((datedSorted ts).getD (insertIdx d (datedSorted ts)) (dummyTf, d)).2 = true)
    ∧ (datedSorted ts ≠ [] → insertIdx d (datedSorted ts) = 0 →
        calculateTimeframeOrder d ts = ((datedSorted ts).getD 0 (dummyTf, d)).1.order - 1)
    ∧ (datedSorted ts ≠ [] → insertIdx d (datedSorted ts) = (datedSorted ts).length →
        calculateTimeframeOrder d ts = maxOrder0 ts + 1)
    ∧ (0 < insertIdx d (datedSorted ts) →
        insertIdx d (datedSorted ts) < (datedSorted ts).length →
        calculateTimeframeOrder d ts
          = (((datedSorted ts).getD (insertIdx d (datedSorted ts) - 1) (dummyTf, d)).1.order
            + ((datedSorted ts).getD (insertIdx d (datedSorted ts)) (dummyTf, d)).1.order) / 2
        ∧ (((datedSorted ts).getD (insertIdx d (datedSorted ts) - 1) (dummyTf, d)).1.order
            < ((datedSorted ts).getD (insertIdx d (datedSorted ts)) (dummyTf, d)).1.order →
          ((datedSorted ts).getD (insertIdx d (datedSorted ts) - 1) (dummyTf, d)).1.order
              < calculateTimeframeOrder d ts
            ∧ calculateTimeframeOrder d ts
              < ((datedSorted ts).getD (insertIdx d (datedSorted ts)) (dummyTf, d)).1.order)) := by
  refine ⟨List.sorted_insertionSort startLe _, List.perm_insertionSort startLe _, ?_,
    (insertIdx_spec d (datedSorted ts)).1, (insertIdx_spec d (datedSorted ts)).2, ?_, ?_, ?_⟩
  · intro hE
    simp only [calculateTimeframeOrder, hE]
  · intro hne h0
    rcases hE : datedSorted ts with _ | ⟨p, rest⟩
    · exact absurd hE hne
    · rw [hE] at h0
      simp [calculateTimeframeOrder, hE, h0]
  · intro hne hlen
    rcases hE : datedSorted ts with _ | ⟨p, rest⟩
    · exact absurd hE hne
    · rw [hE] at hlen
      by_cases h0 : insertIdx d (p :: rest) = 0
      · simp only [calculateTimeframeOrder, hE, h0, if_pos rfl]
        rw [h0] at hlen
        simp at hlen
      · simp only [calculateTimeframeOrder, hE, if_neg h0, if_pos hlen]
  · intro hpos hlt
    rcases hE : datedSorted ts with _ | ⟨p, rest⟩
    · rw [hE] at hpos
      simp [insertIdx] at hpos
    · rw [hE] at hpos hlt
      have h0 : ¬insertIdx d (p :: rest) = 0 := by omega
      have hL : ¬insertIdx d (p :: rest) = (p :: rest).length := by omega
      have hmid : calculateTimeframeOrder d ts
          = (((p :: rest).getD (insertIdx d (p :: rest) - 1) (dummyTf, d)).1.order
            + ((p :: rest).getD (insertIdx d (p :: rest)) (dummyTf, d)).1.order) / 2 := by
        simp only [calculateTimeframeOrder, hE, if_neg h0, if_neg hL]
      rw [hmid]
      refine ⟨rfl, fun hab => ⟨?_, ?_⟩⟩ <;> linarith

/-- Witness for the amended C5 characterization: concrete instances of
the before-all, after-all and strict-between cases over `cexTfsC5`. -/
theorem calculateTimeframeOrder_insertion_cases_witness :
    calculateTimeframeOrder ⟨2025, 0, 1⟩ cexTfsC5
      = ((datedSorted cexTfsC5).getD 0 (dummyTf, ⟨2025, 0, 1⟩)).1.order - 1
    ∧ calculateTimeframeOrder ⟨2026, 8, 1⟩ cexTfsC5 = maxOrder0 cexTfsC5 + 1
    ∧ ((datedSorted cexTfsC5).getD
          (insertIdx ⟨2026, 1, 10⟩ (datedSorted cexTfsC5) - 1) (dummyTf, ⟨2026, 1, 10⟩)).1.order
      < calculateTimeframeOrder ⟨2026, 1, 10⟩ cexTfsC5
    ∧ calculateTimeframeOrder ⟨2026, 1, 10⟩ cexTfsC5
      < ((datedSorted cexTfsC5).getD
          (insertIdx ⟨2026, 1, 10⟩ (datedSorted cexTfsC5)) (dummyTf, ⟨2026, 1, 10⟩)).1.order :=
  ⟨(calculateTimeframeOrder_insertion_cases ⟨2025, 0, 1⟩ cexTfsC5).2.2.2.2.2.1
      (by decide) (by decide),
    (calculateTimeframeOrder_insertion_cases ⟨2026, 8, 1⟩ cexTfsC5).2.2.2.2.2.2.1
      (by decide) (by decide),
    (((calculateTimeframeOrder_insertion_cases ⟨2026, 1, 10⟩ cexTfsC5).2.2.2.2.2.2.2
      (by decide) (by decide)).2 (by decide)).1,
    (((calculateTimeframeOrder_insertion_cases ⟨2026, 1, 10⟩ cexTfsC5).2.2.2.2.2.2.2
      (by decide) (by decide)).2 (by decide)).2⟩

/-- A placeholder task used only as the default of in-bounds
`List.getD` lookups. -/
def dummyTask : Task :=
  ⟨"", "", "", .not_started, .unassigned, .normal, "", "", none, [], ⟨0, 0, 0⟩, ⟨0, 0, 0⟩⟩

theorem getD_map_of_lt (f : α → β) (l : List α) (j : Nat) (hj : j < l.length) (da : α)
    (db : β) : (l.map f).getD j db = f (l.getD j da) := by
  induction l generalizing j with
  | nil => simp at hj
  | cons a as ih =>
    match j with
    | 0 => simp
    | j + 1 =>
      simp only [List.map_cons, List.getD_cons_succ]
      exact ih j (by simpa using hj)

/-- The board targeted by the C1 counterexample: one task, no
timeframes, and a due date in year 50. -/
def cexBoardC1 : Board :=
  { id := "b1"
    name := "W"
    categories := [⟨"c1", "Venue", 0⟩]
    timeframes := []
    tasks := [⟨"t1", "Book venue", "", .not_started, .unassigned, .normal, "c1", "", none, [],
      ⟨2026, 0, 1⟩, ⟨2026, 0, 1⟩⟩]
    createdAt := ⟨2026, 0, 1⟩
    updatedAt := ⟨2026, 0, 1⟩ }

/-- The update used by the C1 counterexample: `dueDate` = year 50,
September 15 (a JS `Date` whose `getFullYear()` is 50, e.g. parsed from
`0050-09-15`). -/
def uC1cex : TaskUpdates :=
  { dueDate := some (some ⟨50, 8, 15⟩) }

/-- C1 counterexample: for a due date whose year is in the constructor's
two-digit range, the synthesized timeframe does *not* span the calendar
month containing the due date.  `createTimeframeForDate` calls
`new Date(date.getFullYear(), month, ...)`, and the two-digit-year rule
maps year 50 to 1950, so the appended timeframe spans September 1950:
its `startDate` is not the ISO form of the first day of the due date's
month, and its range does not even contain the due date. -/
theorem updateTask_two_digit_year_wrong_month :
    (updateTask ⟨2026, 0, 2⟩ "g" "t1" uC1cex cexBoardC1).timeframes.map Timeframe.startDate
      = [some "1950-09-01"]
    ∧ (updateTask ⟨2026, 0, 2⟩ "g" "t1" uC1cex cexBoardC1).timeframes.map Timeframe.endDate
      = [some "1950-09-30"]
    ∧ toISODateString ⟨50, 8, 1⟩ ≠ "1950-09-01"
    ∧ isDateInTimeframe ⟨50, 8, 15⟩
        ((updateTask ⟨2026, 0, 2⟩ "g" "t1" uC1cex cexBoardC1).timeframes.getD 0 dummyTf)
      = false := by
  decide

/-- C1 (amended): `updateTask` with an update carrying a non-null
`dueDate` recomputes the task's `timeframeId` by date resolution over
the board's timeframes.  If resolution returns a truthy (non-empty)
timeframe id, the task is assigned to it and the timeframe collection
is unchanged; otherwise — no match, or the truthiness guard rejecting
an empty-string id — exactly one new timeframe with generated display
name and computed order is appended in the same snapshot and the task
is assigned to it.  The new timeframe spans the full calendar month the
JS `Date` constructor maps `(dueDate.year, dueDate.month)` to: the
month containing the due date when its year is outside 0..99, but the
same month of year + 1900 for two-digit years. -/
theorem updateTask_dueDate_resolves_timeframe (b : Board) (now : CalDate) (freshId id : String)
    (u : TaskUpdates) (d : CalDate) (hdue : u.dueDate = some (some d))
    (hm1 : 0 ≤ d.month) (hm2 : d.month < 12)
    (_hid : ∃ t ∈ b.tasks, t.id = id) :
    (∀ tfId, findTimeframeForDate (some d) b.timeframes = some tfId → tfId ≠ "" →
      (updateTask now freshId id u b).timeframes = b.timeframes
      ∧ (updateTask now freshId id u b).tasks.length = b.tasks.length
      ∧ ∀ j, j < b.tasks.length → (b.tasks.getD j dummyTask).id = id →
        ((updateTask now freshId id u b).tasks.getD j dummyTask).timeframeId = tfId)
    ∧ (findTimeframeForDate (some d) b.timeframes = none
        ∨ findTimeframeForDate (some d) b.timeframes = some "" →
      (updateTask now freshId id u b).timeframes
        = b.timeframes ++ [createTimeframeForDate freshId d b.timeframes]
      ∧ (createTimeframeForDate freshId d b.timeframes).startDate
        = some (toISODateString ⟨jsYearAdjust d.year, d.month, 1⟩)
      ∧ (createTimeframeForDate freshId d b.timeframes).endDate
        = some (toISODateString
          ⟨jsYearAdjust d.year, d.month, daysInMonth (jsYearAdjust d.year) d.month⟩)
      ∧ (¬(0 ≤ d.year ∧ d.year ≤ 99) →
        (createTimeframeForDate freshId d b.timeframes).startDate
          = some (toISODateString ⟨d.year, d.month, 1⟩)
        ∧ (createTimeframeForDate freshId d b.timeframes).endDate
          = some (toISODateString ⟨d.year, d.month, daysInMonth d.year d.month⟩))
      ∧ (createTimeframeForDate freshId d b.timeframes).name = generateTimeframeName d
      ∧ (createTimeframeForDate freshId d b.timeframes).order
        = calculateTimeframeOrder d b.timeframes
      ∧ (createTimeframeForDate freshId d b.timeframes).id = freshId
      ∧ (updateTask now freshId id u b).tasks.length = b.tasks.length
      ∧ ∀ j, j < b.tasks.length → (b.tasks.getD j dummyTask).id = id →
        ((updateTask now freshId id u b).tasks.getD j dummyTask).timeframeId = freshId) := by
  constructor
  · intro tfId h hne
    have hst : strTruthy (findTimeframeForDate (some d) b.timeframes) = true := by
      rw [h]
      simpa [strTruthy] using hne
    have hr : updateTask now freshId id u b
        = updateBoardStamp now
          { b with
            timeframes := b.timeframes
            tasks := b.tasks.map fun task =>
              if task.id = id then
                { applyTaskUpdates task
                    { u with
                      timeframeId :=
                        some ((findTimeframeForDate (some d) b.timeframes).getD "") }
                  with updatedAt := now }
              else task } := by
      simp only [updateTask, hdue, hst, if_true]
    rw [hr]
    refine ⟨rfl, by simp [updateBoardStamp], ?_⟩
    intro j hj hmatch
    show ((b.tasks.map fun task =>
      if task.id = id then
        { applyTaskUpdates task
            { u with
              timeframeId := some ((findTimeframeForDate (some d) b.timeframes).getD "") }
          with updatedAt := now }
      else task).getD j dummyTask).timeframeId = tfId
    rw [getD_map_of_lt _ b.tasks j hj dummyTask dummyTask, if_pos hmatch]
    simp [applyTaskUpdates, h]
  · intro h
    obtain ⟨hs, he, hidf, hname, horder⟩ :=
      createTimeframeForDate_month_span freshId d b.timeframes hm1 hm2
    have hst : strTruthy (findTimeframeForDate (some d) b.timeframes) = false := by
      rcases h with h | h <;> rw [h] <;> rfl
    have hr : updateTask now freshId id u b
        = updateBoardStamp now
          { b with
            timeframes := b.timeframes ++ [createTimeframeForDate freshId d b.timeframes]
            tasks := b.tasks.map fun task =>
              if task.id = id then
                { applyTaskUpdates task
                    { u with
                      timeframeId := some (createTimeframeForDate freshId d b.timeframes).id }
                  with updatedAt := now }
              else task } := by
      simp only [updateTask, hdue, hst, Bool.false_eq_true, if_false]
    rw [hr]
    refine ⟨rfl, hs, he, fun hy => ?_, hname, horder, hidf,
      by simp [updateBoardStamp], ?_⟩
    · rw [jsYearAdjust_of_full d.year hy] at hs he
      exact ⟨hs, he⟩
    · intro j hj hmatch
      show ((b.tasks.map fun task =>
        if task.id = id then
          { applyTaskUpdates task
              { u with timeframeId := some (createTimeframeForDate freshId d b.timeframes).id }
            with updatedAt := now }
        else task).getD j dummyTask).timeframeId = freshId
      rw [getD_map_of_lt _ b.tasks j hj dummyTask dummyTask, if_pos hmatch]
      simp [applyTaskUpdates, hidf]

/-- The update used by the C1 witness: set `dueDate` to 2026-09-15. -/
def uC1 : TaskUpdates :=
  { dueDate := some (some ⟨2026, 8, 15⟩) }

/-- The update used by the C1 witness's match branch: set `dueDate` to
2026-01-15, inside timeframe `tf1`. -/
def uC1b : TaskUpdates :=
  { dueDate := some (some ⟨2026, 0, 15⟩) }

/-- Witness for the amended C1 at a concrete board: no timeframe covers
September 2026, so a `Sep 2026` month timeframe (2026-09-01 ..
2026-09-30) is appended and task `t1` is assigned to it; a due date of
2026-01-15 instead matches the existing `tf1` and leaves the timeframe
collection unchanged. -/
theorem updateTask_dueDate_resolves_timeframe_witness :
    (updateTask ⟨2026, 0, 2⟩ "ntf" "t1" uC1 witnessBoardC2).timeframes
      = witnessBoardC2.timeframes
        ++ [createTimeframeForDate "ntf" ⟨2026, 8, 15⟩ witnessBoardC2.timeframes]
    ∧ (createTimeframeForDate "ntf" ⟨2026, 8, 15⟩ witnessBoardC2.timeframes).startDate
      = some "2026-09-01"
    ∧ (createTimeframeForDate "ntf" ⟨2026, 8, 15⟩ witnessBoardC2.timeframes).endDate
      = some "2026-09-30"
    ∧ (createTimeframeForDate "ntf" ⟨2026, 8, 15⟩ witnessBoardC2.timeframes).name
      = "Sep 2026"
    ∧ ((updateTask ⟨2026, 0, 2⟩ "ntf" "t1" uC1 witnessBoardC2).tasks.getD 0
        dummyTask).timeframeId = "ntf"
    ∧ (updateTask ⟨2026, 0, 2⟩ "ntf" "t1" uC1b witnessBoardC2).timeframes
      = witnessBoardC2.timeframes
    ∧ ((updateTask ⟨2026, 0, 2⟩ "ntf" "t1" uC1b witnessBoardC2).tasks.getD 0
        dummyTask).timeframeId = "tf1" := by
  have h := (updateTask_dueDate_resolves_timeframe witnessBoardC2 ⟨2026, 0, 2⟩ "ntf" "t1"
    uC1 ⟨2026, 8, 15⟩ rfl (by decide) (by decide)
    ⟨witnessBoardC2.tasks.getD 0 dummyTask, by decide, by decide⟩).2 (Or.inl (by decide))
  have hb := (updateTask_dueDate_resolves_timeframe witnessBoardC2 ⟨2026, 0, 2⟩ "ntf" "t1"
    uC1b ⟨2026, 0, 15⟩ rfl (by decide) (by decide)
    ⟨witnessBoardC2.tasks.getD 0 dummyTask, by decide, by decide⟩).1 "tf1" (by decide)
    (by decide)
  exact ⟨h.1, (h.2.2.2.1 (by decide)).1.trans (by decide),
    (h.2.2.2.1 (by decide)).2.trans (by decide), (h.2.2.2.2.1).trans (by decide),
    h.2.2.2.2.2.2.2.2 0 (by decide) (by decide),
    hb.1, hb.2.2 0 (by decide) (by decide)⟩

theorem getD_eq_getElem_of_lt (l : List α) (n : Nat) (h : n < l.length) (d : α) :
    l.getD n d = l[n] := by
  simp [List.getD_eq_getElem?_getD, List.getElem?_eq_getElem h]

theorem nodup_map_id_getD_ne (l : List Timeframe) (hnd : (l.map Timeframe.id).Nodup)
    (i j : Nat) (hi : i < l.length) (hj : j < l.length) (hij : i ≠ j) :
    (l.getD i dummyTf).id ≠ (l.getD j dummyTf).id := by
  rw [getD_eq_getElem_of_lt _ _ hi, getD_eq_getElem_of_lt _ _ hj]
  intro hEq
  have hi2 : i < (l.map Timeframe.id).length := by simpa using hi
  have hj2 : j < (l.map Timeframe.id).length := by simpa using hj
  have hgm : (l.map Timeframe.id)[i] = (l.map Timeframe.id)[j] := by
    simpa [List.getElem_map] using hEq
  exact hij (hnd.getElem_inj_iff.mp hgm)

theorem sortByOrder_perm (ts : List Timeframe) : (sortByOrder ts).Perm ts :=
  List.perm_insertionSort orderLe ts

/-- C9: move-left (resp. move-right) swaps exactly the order keys of
the target timeframe and its immediate left (resp. right) neighbour in
the ascending order-sorted sequence, leaving every other timeframe
untouched and every timeframe's non-order fields (`id`, `name`,
`hidden`, `startDate`, `endDate`) unchanged — the record update
`{ tf with order := _ }` below changes nothing but `order`.  When the
target id is absent, or the target is already first (resp. last) in
sorted order, nothing changes. -/
theorem moveTimeframe_adjacent_swap (ts : List Timeframe) (id : String)
    (hnd : (ts.map Timeframe.id).Nodup) :
    (id ∉ ts.map Timeframe.id →
      moveTimeframeLeft id ts = ts ∧ moveTimeframeRight id ts = ts)
    ∧ (findIndexOpt (fun t => t.id = id) (sortByOrder ts) = some 0 →
      moveTimeframeLeft id ts = ts)
    ∧ (∀ i, findIndexOpt (fun t => t.id = id) (sortByOrder ts) = some i →
      i ≥ (sortByOrder ts).length - 1 → moveTimeframeRight id ts = ts)
    ∧ (∀ i, findIndexOpt (fun t => t.id = id) (sortByOrder ts) = some (i + 1) →
      ((sortByOrder ts).getD (i + 1) dummyTf).id ≠ ((sortByOrder ts).getD i dummyTf).id
      ∧ (moveTimeframeLeft id ts).length = ts.length
      ∧ ∀ j, j < ts.length →
        ((ts.getD j dummyTf).id = ((sortByOrder ts).getD (i + 1) dummyTf).id →
          (moveTimeframeLeft id ts).getD j dummyTf
            = { ts.getD j dummyTf with order := ((sortByOrder ts).getD i dummyTf).order })
        ∧ ((ts.getD j dummyTf).id ≠ ((sortByOrder ts).getD (i + 1) dummyTf).id →
            (ts.getD j dummyTf).id = ((sortByOrder ts).getD i dummyTf).id →
          (moveTimeframeLeft id ts).getD j dummyTf
            = { ts.getD j dummyTf with
                order := ((sortByOrder ts).getD (i + 1) dummyTf).order })
        ∧ ((ts.getD j dummyTf).id ≠ ((sortByOrder ts).getD (i + 1) dummyTf).id →
            (ts.getD j dummyTf).id ≠ ((sortByOrder ts).getD i dummyTf).id →
          (moveTimeframeLeft id ts).getD j dummyTf = ts.getD j dummyTf))
    ∧ (∀ i, findIndexOpt (fun t => t.id = id) (sortByOrder ts) = some i →
      ¬i ≥ (sortByOrder ts).length - 1 →
      ((sortByOrder ts).getD i dummyTf).id ≠ ((sortByOrder ts).getD (i + 1) dummyTf).id
      ∧ (moveTimeframeRight id ts).length = ts.length
      ∧ ∀ j, j < ts.length →
        ((ts.getD j dummyTf).id = ((sortByOrder ts).getD i dummyTf).id →
          (moveTimeframeRight id ts).getD j dummyTf
            = { ts.getD j dummyTf with
                order := ((sortByOrder ts).getD (i + 1) dummyTf).order })
        ∧ ((ts.getD j dummyTf).id ≠ ((sortByOrder ts).getD i dummyTf).id →
            (ts.getD j dummyTf).id = ((sortByOrder ts).getD (i + 1) dummyTf).id →
          (moveTimeframeRight id ts).getD j dummyTf
            = { ts.getD j dummyTf with order := ((sortByOrder ts).getD i dummyTf).order })
        ∧ ((ts.getD j dummyTf).id ≠ ((sortByOrder ts).getD i dummyTf).id →
            (ts.getD j dummyTf).id ≠ ((sortByOrder ts).getD (i + 1) dummyTf).id →
          (moveTimeframeRight id ts).getD j dummyTf = ts.getD j dummyTf)) := by
  have hndS : ((sortByOrder ts).map Timeframe.id).Nodup :=
    (((sortByOrder_perm ts).map Timeframe.id).nodup_iff).mpr hnd
  refine ⟨?_, ?_, ?_, ?_, ?_⟩
  · intro habs
    have hnone : findIndexOpt (fun t => t.id = id) (sortByOrder ts) = none := by
      rw [findIndexOpt_none_iff]
      intro a ha
      have : a.id ≠ id := fun hEq =>
        habs (hEq ▸ List.mem_map_of_mem Timeframe.id ((sortByOrder_perm ts).subset ha))
      simpa using this
    constructor
    · simp only [moveTimeframeLeft, hnone]
    · simp only [moveTimeframeRight, hnone]
  · intro h0
    simp only [moveTimeframeLeft, h0]
  · intro i hi hge
    simp only [moveTimeframeRight, hi, if_pos hge]
  · intro i h
    have hlt : i + 1 < (sortByOrder ts).length :=
      findIndexOpt_lt_length _ (sortByOrder ts) (i + 1) h
    have hne := nodup_map_id_getD_ne (sortByOrder ts) hndS (i + 1) i hlt (by omega) (by omega)
    have hr : moveTimeframeLeft id ts
        = ts.map fun t =>
          if t.id = ((sortByOrder ts).getD (i + 1) dummyTf).id then
            { t with order := ((sortByOrder ts).getD i dummyTf).order }
          else if t.id = ((sortByOrder ts).getD i dummyTf).id then
            { t with order := ((sortByOrder ts).getD (i + 1) dummyTf).order }
          else t := by
      simp only [moveTimeframeLeft, h]
    refine ⟨hne, by rw [hr]; simp, ?_⟩
    intro j hj
    rw [hr]
    rw [getD_map_of_lt _ ts j hj dummyTf dummyTf]
    refine ⟨fun h1 => ?_, fun h1 h2 => ?_, fun h1 h2 => ?_⟩
    · rw [if_pos h1]
    · rw [if_neg h1, if_pos h2]
    · rw [if_neg h1, if_neg h2]
  · intro i h hge
    have hlen : i < (sortByOrder ts).length :=
      findIndexOpt_lt_length _ (sortByOrder ts) i h
    have hlt : i + 1 < (sortByOrder ts).length := by omega
    have hne := nodup_map_id_getD_ne (sortByOrder ts) hndS i (i + 1) hlen hlt (by omega)
    have hr : moveTimeframeRight id ts
        = ts.map fun t =>
          if t.id = ((sortByOrder ts).getD i dummyTf).id then
            { t with order := ((sortByOrder ts).getD (i + 1) dummyTf).order }
          else if t.id = ((sortByOrder ts).getD (i + 1) dummyTf).id then
            { t with order := ((sortByOrder ts).getD i dummyTf).order }
          else t := by
      simp only [moveTimeframeRight, h, if_neg hge]
    refine ⟨hne, by rw [hr]; simp, ?_⟩
    intro j hj
    rw [hr]
    rw [getD_map_of_lt _ ts j hj dummyTf dummyTf]
    refine ⟨fun h1 => ?_, fun h1 h2 => ?_, fun h1 h2 => ?_⟩
    · rw [if_pos h1]
    · rw [if_neg h1, if_pos h2]
    · rw [if_neg h1, if_neg h2]

/-- Fixture for the C9 witness: storage order agrees with key order;
`b` carries non-order fields that the swap must preserve. -/
def witnessTfsC9 : List Timeframe :=
  [⟨"a", "A", 0, none, none, none⟩,
    ⟨"b", "B", 1, some true, some "2026-01-01", some "2026-01-31"⟩,
    ⟨"c", "C", 2, none, none, none⟩]

/-- Witness for C9: moving `b` left swaps the orders of `a` and `b`
only (other fields intact), moving the last column right is a no-op,
and an absent id is a no-op. -/
theorem moveTimeframe_adjacent_swap_witness :
    (moveTimeframeLeft "b" witnessTfsC9).getD 1 dummyTf
      = { witnessTfsC9.getD 1 dummyTf with
          order := ((sortByOrder witnessTfsC9).getD 0 dummyTf).order }
    ∧ (moveTimeframeLeft "b" witnessTfsC9).getD 0 dummyTf
      = { witnessTfsC9.getD 0 dummyTf with
          order := ((sortByOrder witnessTfsC9).getD 1 dummyTf).order }
    ∧ (moveTimeframeLeft "b" witnessTfsC9).getD 2 dummyTf = witnessTfsC9.getD 2 dummyTf
    ∧ moveTimeframeRight "c" witnessTfsC9 = witnessTfsC9
    ∧ moveTimeframeLeft "zz" witnessTfsC9 = witnessTfsC9 :=
  ⟨(((moveTimeframe_adjacent_swap witnessTfsC9 "b" (by decide)).2.2.2.1 0 (by decide)).2.2
      1 (by decide)).1 (by decide),
    ((((moveTimeframe_adjacent_swap witnessTfsC9 "b" (by decide)).2.2.2.1 0 (by decide)).2.2
      0 (by decide)).2.1 (by decide) (by decide)),
    ((((moveTimeframe_adjacent_swap witnessTfsC9 "b" (by decide)).2.2.2.1 0 (by decide)).2.2
      2 (by decide)).2.2 (by decide) (by decide)),
    ((moveTimeframe_adjacent_swap witnessTfsC9 "c" (by decide)).2.2.1 2 (by decide)
      (by decide)),
    ((moveTimeframe_adjacent_swap witnessTfsC9 "zz" (by decide)).1 (by decide)).1⟩

theorem sessionRun_mutations_coalesce (muts : List (CalDate × Board)) (s0 : SessionState)
    (hne : muts ≠ []) :
    (sessionRun true s0 (muts.map fun p => SessionEvent.mutate p.1 p.2)).remoteWrites
      = s0.remoteWrites
    ∧ (sessionRun true s0 (muts.map fun p => SessionEvent.mutate p.1 p.2)).pendingWrite
      = some (updateBoardStamp (muts.getLast hne).1 (muts.getLast hne).2) := by
  induction muts generalizing s0 with
  | nil => exact absurd rfl hne
  | cons m rest ih =>
    match rest with
    | [] =>
      simp [sessionRun, sessionStep, List.getLast]
    | m2 :: rest2 =>
      have hne2 : m2 :: rest2 ≠ [] := by simp
      have hstep : sessionRun true s0
          (((m :: m2 :: rest2).map fun p => SessionEvent.mutate p.1 p.2))
          = sessionRun true (sessionStep true s0 (SessionEvent.mutate m.1 m.2))
            ((m2 :: rest2).map fun p => SessionEvent.mutate p.1 p.2) := by
        simp [sessionRun]
      have hlast : (m :: m2 :: rest2).getLast hne = (m2 :: rest2).getLast hne2 :=
        List.getLast_cons hne2
      rw [hstep, hlast]
      exact (ih (sessionStep true s0 (SessionEvent.mutate m.1 m.2)) hne2).imp
        (fun h => h.trans rfl) id

/-- C3: all N ≥ 1 mutations of one debounce quantum re-arm the single
pending-write slot; no remote write happens while the quantum is open,
and when the timer fires exactly one write is emitted, carrying
precisely the board state produced by the Nth (last) mutation —
intermediate states are never written. -/
theorem debounce_quantum_single_write (s0 : SessionState) (muts : List (CalDate × Board))
    (hne : muts ≠ []) :
    (sessionRun true s0 (muts.map fun p => SessionEvent.mutate p.1 p.2)).remoteWrites
      = s0.remoteWrites
    ∧ (sessionRun true s0 (muts.map fun p => SessionEvent.mutate p.1 p.2)).pendingWrite
      = some (updateBoardStamp (muts.getLast hne).1 (muts.getLast hne).2)
    ∧ (sessionStep true (sessionRun true s0 (muts.map fun p => SessionEvent.mutate p.1 p.2))
        SessionEvent.timerFire).remoteWrites
      = s0.remoteWrites ++ [updateBoardStamp (muts.getLast hne).1 (muts.getLast hne).2]
    ∧ (sessionStep true (sessionRun true s0 (muts.map fun p => SessionEvent.mutate p.1 p.2))
        SessionEvent.timerFire).pendingWrite = none := by
  obtain ⟨hw, hp⟩ := sessionRun_mutations_coalesce muts s0 hne
  refine ⟨hw, hp, ?_, ?_⟩
  · simp [sessionStep, hp, hw]
  · simp [sessionStep, hp]

/-- Session-state fixture for the C3 witness. -/
def sessionC3 : SessionState :=
  { board := some witnessBoardC2
    syncStatus := .synced
    localCache := some witnessBoardC2
    pendingWrite := none
    remoteWrites := []
    subscribed := true }

/-- Witness for C3: two mutations inside one quantum produce no write
until the timer fires, and then exactly one write carrying the second
mutation's state. -/
theorem debounce_quantum_single_write_witness :
    (sessionRun true sessionC3
      ([(⟨2026, 0, 2⟩, witnessBoardC2),
        (⟨2026, 0, 3⟩, { witnessBoardC2 with name := "W2" })].map
        fun p => SessionEvent.mutate p.1 p.2)).remoteWrites = sessionC3.remoteWrites
    ∧ (sessionStep true
        (sessionRun true sessionC3
          ([(⟨2026, 0, 2⟩, witnessBoardC2),
            (⟨2026, 0, 3⟩, { witnessBoardC2 with name := "W2" })].map
            fun p => SessionEvent.mutate p.1 p.2))
        SessionEvent.timerFire).remoteWrites
      = sessionC3.remoteWrites
        ++ [updateBoardStamp ⟨2026, 0, 3⟩ { witnessBoardC2 with name := "W2" }] :=
  ⟨(debounce_quantum_single_write sessionC3
      [(⟨2026, 0, 2⟩, witnessBoardC2), (⟨2026, 0, 3⟩, { witnessBoardC2 with name := "W2" })]
      (by simp)).1,
    (debounce_quantum_single_write sessionC3
      [(⟨2026, 0, 2⟩, witnessBoardC2), (⟨2026, 0, 3⟩, { witnessBoardC2 with name := "W2" })]
      (by simp)).2.2.1⟩

/-- The C7 invariant: status is `offline`, nothing was ever written
remotely, no subscription was opened, no write is pending, and the
local cache mirrors the loaded board. -/
def OfflineInv (s : SessionState) : Prop :=
  s.syncStatus = .offline ∧ s.remoteWrites = [] ∧ s.pendingWrite = none
    ∧ s.subscribed = false ∧ s.localCache = s.board ∧ ∃ bb, s.board = some bb

theorem offline_run_preserves_inv (events : List SessionEvent) (s : SessionState)
    (h : OfflineInv s) : OfflineInv (sessionRun false s events) := by
  induction events generalizing s with
  | nil => exact h
  | cons e rest ih =>
    have hstep : OfflineInv (sessionStep false s e) := by
      obtain ⟨h1, h2, h3, h4, h5, bb, h6⟩ := h
      cases e with
      | mutate now nb =>
        exact ⟨h1, h2, by simpa [sessionStep] using h3, h4, rfl, _, rfl⟩
      | timerFire =>
        simp only [sessionStep, h3]
        exact ⟨h1, h2, h3, h4, h5, bb, h6⟩
    simpa [sessionRun] using ih (sessionStep false s e) hstep

/-- C7: with remote persistence unconfigured, a session started through
the local-only init path keeps, after every prefix of an arbitrary
mix of mutations and timer events: `syncStatus = offline` (never
syncing/synced/error), an empty remote-write log and no subscription
(no remote call is ever attempted), no armed pending write, and a local
cache that mirrors the current board — every mutation succeeds against
the local cache only. -/
theorem offline_session_stays_offline (b0 : Board) (events : List SessionEvent) (n : Nat) :
    (sessionRun false (initLocalOnly b0) (events.take n)).syncStatus = SyncStatus.offline
    ∧ (sessionRun false (initLocalOnly b0) (events.take n)).remoteWrites = []
    ∧ (sessionRun false (initLocalOnly b0) (events.take n)).pendingWrite = none
    ∧ (sessionRun false (initLocalOnly b0) (events.take n)).subscribed = false
    ∧ (sessionRun false (initLocalOnly b0) (events.take n)).localCache
      = (sessionRun false (initLocalOnly b0) (events.take n)).board
    ∧ ∃ bb, (sessionRun false (initLocalOnly b0) (events.take n)).board = some bb :=
  offline_run_preserves_inv (events.take n) (initLocalOnly b0)
    ⟨rfl, rfl, rfl, rfl, rfl, b0, rfl⟩

theorem map_congr_mem (l : List α) (f g : α → β) (h : ∀ a ∈ l, f a = g a) :
    l.map f = l.map g := by
  induction l with
  | nil => rfl
  | cons a as ih =>
    rw [List.map_cons, List.map_cons, h a (List.mem_cons_self a as),
      ih fun b hb => h b (List.mem_cons_of_mem a hb)]

/-- The board targeted by the C4 counterexample: no tasks at all, so
any task id is absent. -/
def cexBoardC4 : Board :=
  { id := "b4"
    name := "W"
    categories := []
    timeframes := []
    tasks := []
    createdAt := ⟨2026, 0, 1⟩
    updatedAt := ⟨2026, 0, 1⟩ }

/-- The update used by the C4 counterexample: a non-null `dueDate`. -/
def uC4 : TaskUpdates :=
  { dueDate := some (some ⟨2026, 8, 15⟩) }

/-- C4 counterexample: `updateTask` with a non-existent task id and a
non-null `dueDate` is *not* a no-op — the board's `updatedAt` is
restamped and, because no timeframe matches, a synthesized timeframe is
appended even though no task was updated.  The resulting board differs
from the input board. -/
theorem updateTask_missing_id_not_noop :
    cexBoardC4.tasks = []
    ∧ (updateTask ⟨2026, 0, 2⟩ "g1" "ghost" uC4 cexBoardC4).timeframes.length
      = cexBoardC4.timeframes.length + 1
    ∧ (updateTask ⟨2026, 0, 2⟩ "g1" "ghost" uC4 cexBoardC4).updatedAt = ⟨2026, 0, 2⟩
    ∧ cexBoardC4.updatedAt ≠ ⟨2026, 0, 2⟩
    ∧ updateTask ⟨2026, 0, 2⟩ "g1" "ghost" uC4 cexBoardC4 ≠ cexBoardC4 := by
  refine ⟨rfl, by decide, by decide, by decide, fun h => ?_⟩
  exact absurd (congrArg (fun bb => bb.timeframes.length) h) (by decide)

/-- C4 (amended): a mutation whose target id is absent raises no error
and leaves every entity collection unchanged, except that (1) the
board-level `updatedAt` is always restamped to the mutation time,
(2) `updateTask` with a non-null `dueDate` still runs timeframe
resolution and may append one synthesized timeframe, and (3) checklist
mutations addressed at an *existing* task but a missing item id restamp
that task's `updatedAt` (its checklist is untouched).  Cascade deletes
additionally require that no task references the absent id (otherwise
orphaned tasks are still removed). -/
theorem missing_id_mutations_frame (b : Board) (now : CalDate) (freshId tid cid tfid itemId
    tid2 : String) (title : String) (u : TaskUpdates) (uc : CategoryUpdates)
    (ut : TimeframeUpdates) (ui : ChecklistItemUpdates)
    (hTask : ∀ t ∈ b.tasks, t.id ≠ tid)
    (hCat : ∀ c ∈ b.categories, c.id ≠ cid)
    (hTf : ∀ tf ∈ b.timeframes, tf.id ≠ tfid)
    (hRefCat : ∀ t ∈ b.tasks, t.categoryId ≠ cid)
    (hRefTf : ∀ t ∈ b.tasks, t.timeframeId ≠ tfid)
    (hItem : ∀ t ∈ b.tasks, ∀ it ∈ t.checklist, it.id ≠ itemId) :
    deleteTask now tid b = updateBoardStamp now b
    ∧ moveTask now tid cid tfid b = updateBoardStamp now b
    ∧ updateCategory now cid uc b = updateBoardStamp now b
    ∧ deleteCategory now cid b = updateBoardStamp now b
    ∧ updateTimeframe now tfid ut b = updateBoardStamp now b
    ∧ deleteTimeframe now tfid b = updateBoardStamp now b
    ∧ addChecklistItem now freshId tid title b = updateBoardStamp now b
    ∧ updateChecklistItem now tid itemId ui b = updateBoardStamp now b
    ∧ deleteChecklistItem now tid itemId b = updateBoardStamp now b
    ∧ ((updateTask now freshId tid u b).tasks = b.tasks
      ∧ (updateTask now freshId tid u b).categories = b.categories
      ∧ (updateTask now freshId tid u b).updatedAt = now
      ∧ ((updateTask now freshId tid u b).timeframes = b.timeframes
        ∨ ∃ ntf, (updateTask now freshId tid u b).timeframes = b.timeframes ++ [ntf]))
    ∧ (updateChecklistItem now tid2 itemId ui b).tasks
      = b.tasks.map (fun t => if t.id = tid2 then { t with updatedAt := now } else t)
    ∧ (deleteChecklistItem now tid2 itemId b).tasks
      = b.tasks.map (fun t => if t.id = tid2 then { t with updatedAt := now } else t) := by
  have hTaskFilter : (b.tasks.filter fun task => task.id ≠ tid) = b.tasks :=
    filter_eq_self_of _ _ fun a ha => decide_eq_true (hTask a ha)
  have hTaskMapNe : ∀ (f : Task → Task),
      (b.tasks.map fun task => if task.id = tid then f task else task) = b.tasks :=
    fun f => map_eq_self_of _ _ fun a ha => if_neg (hTask a ha)
  refine ⟨?_, ?_, ?_, ?_, ?_, ?_, ?_, ?_, ?_, ?_, ?_, ?_⟩
  · simp only [deleteTask, hTaskFilter]
  · simp only [moveTask, hTaskMapNe]
  · have : (b.categories.map fun cat =>
        if cat.id = cid then applyCategoryUpdates cat uc else cat) = b.categories :=
      map_eq_self_of _ _ fun a ha => if_neg (hCat a ha)
    simp only [updateCategory, this]
  · have h1 : (b.categories.filter fun cat => cat.id ≠ cid) = b.categories :=
      filter_eq_self_of _ _ fun a ha => decide_eq_true (hCat a ha)
    have h2 : (b.tasks.filter fun task => task.categoryId ≠ cid) = b.tasks :=
      filter_eq_self_of _ _ fun a ha => decide_eq_true (hRefCat a ha)
    simp only [deleteCategory, h1, h2]
  · have : (b.timeframes.map fun tf =>
        if tf.id = tfid then applyTimeframeUpdates tf ut else tf) = b.timeframes :=
      map_eq_self_of _ _ fun a ha => if_neg (hTf a ha)
    simp only [updateTimeframe, this]
  · have h1 : (b.timeframes.filter fun tf => tf.id ≠ tfid) = b.timeframes :=
      filter_eq_self_of _ _ fun a ha => decide_eq_true (hTf a ha)
    have h2 : (b.tasks.filter fun task => task.timeframeId ≠ tfid) = b.tasks :=
      filter_eq_self_of _ _ fun a ha => decide_eq_true (hRefTf a ha)
    simp only [deleteTimeframe, h1, h2]
  · simp only [addChecklistItem, hTaskMapNe]
  · simp only [updateChecklistItem, hTaskMapNe]
  · simp only [deleteChecklistItem, hTaskMapNe]
  · rcases hdu : u.dueDate with _ | od
    · simp only [updateTask, hdu]
      exact ⟨hTaskMapNe _, rfl, rfl, Or.inl rfl⟩
    · rcases od with _ | d
      · simp only [updateTask, hdu]
        exact ⟨hTaskMapNe _, rfl, rfl, Or.inl rfl⟩
      · cases hst : strTruthy (findTimeframeForDate (some d) b.timeframes) with
        | false =>
          simp only [updateTask, hdu, hst, Bool.false_eq_true, if_false]
          exact ⟨hTaskMapNe _, rfl, rfl,
            Or.inr ⟨createTimeframeForDate freshId d b.timeframes, rfl⟩⟩
        | true =>
          simp only [updateTask, hdu, hst, if_true]
          exact ⟨hTaskMapNe _, rfl, rfl, Or.inl rfl⟩
  · simp only [updateChecklistItem, updateBoardStamp]
    refine map_congr_mem _ _ _ fun a ha => ?_
    by_cases hid2 : a.id = tid2
    · rw [if_pos hid2, if_pos hid2]
      have : (a.checklist.map fun item =>
          if item.id = itemId then applyChecklistItemUpdates item ui else item)
          = a.checklist :=
        map_eq_self_of _ _ fun it hit => if_neg (hItem a ha it hit)
      rw [this]
    · rw [if_neg hid2, if_neg hid2]
  · simp only [deleteChecklistItem, updateBoardStamp]
    refine map_congr_mem _ _ _ fun a ha => ?_
    by_cases hid2 : a.id = tid2
    · rw [if_pos hid2, if_pos hid2]
      have : (a.checklist.filter fun item => item.id ≠ itemId) = a.checklist :=
        filter_eq_self_of _ _ fun it hit => decide_eq_true (hItem a ha it hit)
      rw [this]
    · rw [if_neg hid2, if_neg hid2]

/-- Witness for the amended C4 theorem at a concrete board with three
tasks and absent ids. -/
theorem missing_id_mutations_frame_witness :
    deleteTask ⟨2026, 0, 5⟩ "nope" witnessBoardC2
      = updateBoardStamp ⟨2026, 0, 5⟩ witnessBoardC2
    ∧ deleteCategory ⟨2026, 0, 5⟩ "nocat" witnessBoardC2
      = updateBoardStamp ⟨2026, 0, 5⟩ witnessBoardC2
    ∧ deleteTimeframe ⟨2026, 0, 5⟩ "notf" witnessBoardC2
      = updateBoardStamp ⟨2026, 0, 5⟩ witnessBoardC2
    ∧ (updateTask ⟨2026, 0, 5⟩ "fid" "nope" uC4 witnessBoardC2).tasks
      = witnessBoardC2.tasks := by
  have h := missing_id_mutations_frame witnessBoardC2 ⟨2026, 0, 5⟩ "fid" "nope" "nocat"
    "notf" "noitem" "t1" "x" uC4 {} {} {} (by decide) (by decide) (by decide) (by decide)
    (by decide) (by decide)
  exact ⟨h.1, h.2.2.2.1, h.2.2.2.2.2.1, h.2.2.2.2.2.2.2.2.2.1.1⟩

theorem backfillTimeframe_preserves_shape (tf : Timeframe) :
    (backfillTimeframe tf).id = tf.id
    ∧ (backfillTimeframe tf).order = tf.order
    ∧ (backfillTimeframe tf).name = tf.name
    ∧ (backfillTimeframe tf).hidden = tf.hidden := by
  unfold backfillTimeframe
  split
  · exact ⟨rfl, rfl, rfl, rfl⟩
  · split
    · exact ⟨rfl, rfl, rfl, rfl⟩
    · split
      · exact ⟨rfl, rfl, rfl, rfl⟩
      · exact ⟨rfl, rfl, rfl, rfl⟩

theorem backfillTimeframe_skips_complete (tf : Timeframe)
    (hs : strTruthy tf.startDate = true) (he : strTruthy tf.endDate = true) :
    backfillTimeframe tf = tf := by
  unfold backfillTimeframe
  rw [if_pos (by rw [hs, he]; rfl)]

/-- The board targeted by the C8 counterexample: a timeframe that
lacks date metadata but has a legacy-table name, and a category with an
empty display name. -/
def cexBoardC8 : Board :=
  { id := "b8"
    name := "W"
    categories := [⟨"c1", "", 0⟩]
    timeframes := [⟨"T", "Jan 2026", 0, none, none, none⟩]
    tasks := []
    createdAt := ⟨2026, 0, 1⟩
    updatedAt := ⟨2026, 0, 1⟩ }

/-- C8 counterexample: serializing `cexBoardC8` and reloading it does
*not* reproduce an equivalent board — the load path backfills the
timeframe's `startDate`/`endDate` from its legacy name and replaces the
empty category name with a generated placeholder, so the reloaded board
differs from the original. -/
theorem loadStored_roundtrip_not_identity :
    loadStoredBoard (storeBoard cexBoardC8) ≠ cexBoardC8
    ∧ (loadStoredBoard (storeBoard cexBoardC8)).timeframes.map Timeframe.startDate
      = [some "2026-01-01"]
    ∧ cexBoardC8.timeframes.map Timeframe.startDate = [none]
    ∧ (loadStoredBoard (storeBoard cexBoardC8)).categories.map Category.name
      = ["Category 0"] := by
  refine ⟨fun h => ?_, by decide, by decide, by decide⟩
  exact absurd (congrArg (fun bb => bb.timeframes.map Timeframe.startDate) h) (by decide)

/-- C8 (amended): reloading a serialized board reproduces the board up
to the documented on-load date-metadata backfill — the result equals
the original with `backfillTimeframeDates` applied to its timeframes
(provided display names are nonempty; empty names are replaced by
generated placeholders on load).  The backfill preserves every
timeframe's id, order, name and hidden flag, and leaves timeframes that
already carry both (nonempty) dates completely untouched, so entity
ids, order values and date fields (createdAt, updatedAt, dueDate,
existing timeframe startDate/endDate) survive the round trip; missing
optional fields of stored documents are filled with their documented
defaults (lists become empty, enums become
not_started/unassigned/normal). -/
theorem loadStored_storeBoard_roundtrip (b : Board)
    (hcat : ∀ c ∈ b.categories, c.name ≠ "")
    (htf : ∀ tf ∈ b.timeframes, tf.name ≠ "") :
    loadStoredBoard (storeBoard b)
      = { b with timeframes := backfillTimeframeDates b.timeframes }
    ∧ (backfillTimeframeDates b.timeframes).map Timeframe.id = b.timeframes.map Timeframe.id
    ∧ (backfillTimeframeDates b.timeframes).map Timeframe.order
      = b.timeframes.map Timeframe.order
    ∧ (backfillTimeframeDates b.timeframes).map Timeframe.name
      = b.timeframes.map Timeframe.name
    ∧ (backfillTimeframeDates b.timeframes).map Timeframe.hidden
      = b.timeframes.map Timeframe.hidden
    ∧ (∀ tf ∈ b.timeframes, strTruthy tf.startDate = true → strTruthy tf.endDate = true →
      backfillTimeframe tf = tf)
    ∧ (∀ st : StoredTask,
      (st.checklist = none → (loadTask st).checklist = [])
      ∧ (st.status = none → (loadTask st).status = TaskStatus.not_started)
      ∧ (st.assignee = none → (loadTask st).assignee = TaskAssignee.unassigned)
      ∧ (st.priority = none → (loadTask st).priority = TaskPriority.normal)) := by
  have hts : ((storeBoard b).tasks.getD []).map loadTask = b.tasks := by
    simp only [storeBoard, Option.getD_some, List.map_map]
    exact map_eq_self_of _ _ fun a _ => rfl
  have hcs : ((storeBoard b).categories.getD []).map loadCategory = b.categories := by
    simp only [storeBoard, Option.getD_some, List.map_map]
    exact map_eq_self_of _ _ fun c hc => by
      simp [loadCategory, storeCategory, Function.comp, hcat c hc]
  have htfs : ((storeBoard b).timeframes.getD []).map loadTimeframe = b.timeframes := by
    simp only [storeBoard, Option.getD_some, List.map_map]
    exact map_eq_self_of _ _ fun tf htfm => by
      simp [loadTimeframe, storeTimeframe, Function.comp, htf tf htfm]
  refine ⟨?_, ?_, ?_, ?_, ?_,
    fun tf _ hs he => backfillTimeframe_skips_complete tf hs he,
    fun st => ⟨fun h => by simp [loadTask, h], fun h => by simp [loadTask, h],
      fun h => by simp [loadTask, h], fun h => by simp [loadTask, h]⟩⟩
  · show Board.mk (storeBoard b).id (storeBoard b).name
      (((storeBoard b).categories.getD []).map loadCategory)
      (backfillTimeframeDates (((storeBoard b).timeframes.getD []).map loadTimeframe))
      (((storeBoard b).tasks.getD []).map loadTask)
      (storeBoard b).createdAt (storeBoard b).updatedAt
      = { b with timeframes := backfillTimeframeDates b.timeframes }
    rw [hts, hcs, htfs]
    rfl
  all_goals
    unfold backfillTimeframeDates
    rw [List.map_map]
    exact map_congr_mem _ _ _ fun tf _ => by
      have h := backfillTimeframe_preserves_shape tf
      simp [Function.comp, h.1, h.2.1, h.2.2.1, h.2.2.2]

/-- Witness for the amended C8 round trip: `witnessBoardC2` has
complete timeframe metadata and nonempty names, so the round trip is
the identity. -/
theorem loadStored_storeBoard_roundtrip_witness :
    loadStoredBoard (storeBoard witnessBoardC2) = witnessBoardC2 :=
  ((loadStored_storeBoard_roundtrip witnessBoardC2 (by decide) (by decide)).1).trans
    (by decide)

end WeddingPlanner
